import Mathlib

/-!
Verification of the simPLY_chess engine (src/src/engines/simPLY_chess.py)
against its natural-language specification.

The engine represents a position as a 120-character string laid out as a
10 x 12 grid: files a-h occupy columns 1-8, rank 1 is row 9 and rank 8 is
row 2; column 0 holds a space, column 9 a newline, and rows 0-1 and 10-11
are whitespace sentinels.  Uppercase pieces belong to the side to move.

We embed the board as a `List Char` of length 120 and transliterate the
engine functions.  Python string indexing that the engine only ever
performs in bounds is modelled by total lookups that return the sentinel
character (space) out of range; Python floor division `//` and `%` on a
positive divisor coincide with Lean `Int` division (`Int.ediv`/`Int.emod`),
which is what `/` and `%` denote on `Int`.  Python one-character strings
are modelled as `Char`; the empty string that appears only in the null
move `(0, 0, "", "")` and as the empty promotion field is modelled by the
space character, which can never occur in those fields of a generated
move.
-/

/-- Python `str.isspace` restricted to ASCII, which is all the board uses. -/
def pyIsSpace (c : Char) : Bool :=
  c == ' ' || c == '\n' || c == '\t' || c == '\r' || c == '\x0b' || c == '\x0c'

/-- Python `str.isupper` on a one-character ASCII string. -/
def pyIsUpper (c : Char) : Bool := c.isUpper

/-- Python `str.islower` on a one-character ASCII string. -/
def pyIsLower (c : Char) : Bool := c.isLower

/-- Python `str.upper` on a one-character ASCII string. -/
def pyUpper (c : Char) : Char := c.toUpper

/-- Python `str.swapcase` on a one-character ASCII string. -/
def swapcase (c : Char) : Char :=
  if c.isUpper then c.toLower else if c.isLower then c.toUpper else c

/-- The board: the engine's 120-character position string as a list. -/
abbrev Board := List Char

/-- Board lookup at a `Nat` index (sentinel space out of range). -/
def getN (p : Board) (i : Nat) : Char := p.getD i ' '

/-- Board lookup at an `Int` index.  The engine only indexes in bounds
(the sentinel frame stops every scan); out-of-range lookups return the
sentinel space, which makes every scan stop exactly as in the source. -/
def cellAt (p : Board) (i : Int) : Char :=
  if 0 ≤ i then getN p i.toNat else ' '

/-- Write to the board at an `Int` index (no-op out of range, where the
source would raise; never reached on the boards the claims quantify over). -/
def setAt (p : Board) (i : Int) (c : Char) : Board :=
  if 0 ≤ i then p.set i.toNat c else p

/-- Python `lst[i], lst[j] = lst[j], lst[i]`. -/
def swapAt (p : Board) (i j : Int) : Board :=
  let a := cellAt p i
  let b := cellAt p j
  setAt (setAt p i b) j a

/-- Python `position.find(c) if c in position else 0`. -/
def pyFind (p : Board) (c : Char) : Int :=
  match List.findIdx? (fun x => x == c) p with
  | some i => (i : Int)
  | none => 0

-- Corner squares.
def A1 : Int := 91
def H1 : Int := 98
def A8 : Int := 21
def H8 : Int := 28

-- Cardinal directions.
def NORTH : Int := -10
def EAST : Int := 1
def SOUTH : Int := 10
def WEST : Int := -1

/-- Directions for each piece type (`PIECE_DIRECTIONS` in the source);
keys other than the six piece letters would raise `KeyError` in Python
and are modelled by the empty list (never reached on well-formed boards). -/
def PIECE_DIRECTIONS (c : Char) : List Int :=
  if c == 'P' then [NORTH, NORTH + NORTH, NORTH + WEST, NORTH + EAST]
  else if c == 'N' then
    [NORTH + NORTH + EAST, NORTH + NORTH + WEST, EAST + EAST + NORTH, EAST + EAST + SOUTH,
     SOUTH + SOUTH + EAST, SOUTH + SOUTH + WEST, WEST + WEST + SOUTH, WEST + WEST + NORTH]
  else if c == 'B' then [NORTH + EAST, SOUTH + EAST, SOUTH + WEST, NORTH + WEST]
  else if c == 'R' then [NORTH, EAST, SOUTH, WEST]
  else if c == 'Q' then
    [NORTH, EAST, SOUTH, WEST, NORTH + EAST, SOUTH + EAST, SOUTH + WEST, NORTH + WEST]
  else if c == 'K' then
    [NORTH, EAST, SOUTH, WEST, NORTH + EAST, SOUTH + EAST, SOUTH + WEST, NORTH + WEST]
  else []

/-- The initial board string. -/
def INITIAL_POSITION : Board :=
  ("         \n" ++
   "         \n" ++
   " rnbqkbnr\n" ++
   " pppppppp\n" ++
   " ........\n" ++
   " ........\n" ++
   " ........\n" ++
   " ........\n" ++
   " PPPPPPPP\n" ++
   " RNBQKBNR\n" ++
   "         \n" ++
   "         \n").toList

def INITIAL_CASTLING : List Bool := [true, true]
def INITIAL_OPPONENT_CASTLING : List Bool := [true, true]
def INITIAL_EN_PASSANT : Int := 0
def INITIAL_KING_PASSANT : Int := 0
def INITIAL_COLOR : Char := 'w'

-- Piece values (centipawns), midgame and endgame.
def MIDGAME_PAWN_VALUE : Int := 100
def MIDGAME_KNIGHT_VALUE : Int := 411
def MIDGAME_BISHOP_VALUE : Int := 445
def MIDGAME_ROOK_VALUE : Int := 582
def MIDGAME_QUEEN_VALUE : Int := 1250
def MIDGAME_KING_VALUE : Int := 100000

/-- `MIDGAME_PIECE_VALUES` dict; unknown keys are 0 (Python would raise). -/
def MIDGAME_PIECE_VALUES (c : Char) : Int :=
  if c == 'P' then MIDGAME_PAWN_VALUE
  else if c == 'N' then MIDGAME_KNIGHT_VALUE
  else if c == 'B' then MIDGAME_BISHOP_VALUE
  else if c == 'R' then MIDGAME_ROOK_VALUE
  else if c == 'Q' then MIDGAME_QUEEN_VALUE
  else if c == 'K' then MIDGAME_KING_VALUE
  else 0

/-- `MIDGAME_TROPISM_VALUES = {piece: value // 5 ...}`. -/
def MIDGAME_TROPISM_VALUES (c : Char) : Int := MIDGAME_PIECE_VALUES c / 5

def ENDGAME_PAWN_VALUE : Int := 115
def ENDGAME_KNIGHT_VALUE : Int := 343
def ENDGAME_BISHOP_VALUE : Int := 362
def ENDGAME_ROOK_VALUE : Int := 624
def ENDGAME_QUEEN_VALUE : Int := 1141
def ENDGAME_KING_VALUE : Int := 100000

/-- `ENDGAME_PIECE_VALUES` dict; unknown keys are 0 (Python would raise). -/
def ENDGAME_PIECE_VALUES (c : Char) : Int :=
  if c == 'P' then ENDGAME_PAWN_VALUE
  else if c == 'N' then ENDGAME_KNIGHT_VALUE
  else if c == 'B' then ENDGAME_BISHOP_VALUE
  else if c == 'R' then ENDGAME_ROOK_VALUE
  else if c == 'Q' then ENDGAME_QUEEN_VALUE
  else if c == 'K' then ENDGAME_KING_VALUE
  else 0

/-- `ENDGAME_TROPISM_VALUES = {piece: value // 3 ...}`. -/
def ENDGAME_TROPISM_VALUES (c : Char) : Int := ENDGAME_PIECE_VALUES c / 3
def MIDGAME_PAWN_TABLE : List Int := [
  0, 0, 0, 0, 0, 0, 0, 0,
  120, 163, 74, 116, 83, 154, 41, -13,
  -7, 9, 32, 38, 79, 68, 30, -24,
  -17, 16, 7, 26, 28, 15, 21, -28,
  -33, -2, -6, 20, 26, 7, 12, -30,
  -32, -5, -5, -12, 4, 4, 40, -15,
  -43, -1, -24, -33, -23, 29, 46, -27,
  0, 0, 0, 0, 0, 0, 0, 0]

def MIDGAME_KNIGHT_TABLE : List Int := [
  -204, -109, -41, -60, 74, -118, -18, -130,
  -89, -50, 88, 44, 28, 76, 9, -21,
  -57, 73, 45, 79, 102, 157, 89, 54,
  -11, 21, 23, 65, 45, 84, 22, 27,
  -16, 5, 20, 16, 34, 23, 26, -10,
  -28, -11, 15, 12, 23, 21, 30, -20,
  -35, -65, -15, -4, -1, 22, -17, -23,
  -128, -26, -71, -40, -21, -34, -23, -28]

def MIDGAME_BISHOP_TABLE : List Int := [
  -35, 5, -100, -45, -30, -51, 9, -10,
  -32, 20, -22, -16, 37, 72, 22, -57,
  -20, 45, 52, 49, 43, 61, 45, -2,
  -5, 6, 23, 61, 45, 45, 9, -2,
  -7, 16, 16, 32, 41, 15, 12, 5,
  0, 18, 18, 18, 17, 33, 22, 12,
  5, 18, 20, 0, 9, 26, 40, 1,
  -40, -4, -17, -26, -16, -15, -48, -26]

def MIDGAME_ROOK_TABLE : List Int := [
  39, 51, 39, 62, 77, 11, 38, 52,
  33, 39, 71, 76, 98, 82, 32, 54,
  -6, 23, 32, 44, 21, 55, 74, 20,
  -29, -13, 9, 32, 29, 43, -10, -24,
  -44, -32, -15, -1, 11, -9, 7, -28,
  -55, -30, -20, -21, 4, 0, -6, -40,
  -54, -20, -24, -11, -1, 13, -7, -87,
  -23, -16, 1, 21, 20, 9, -45, -32]

def MIDGAME_QUEEN_TABLE : List Int := [
  -34, 0, 35, 15, 72, 54, 52, 55,
  -29, -48, -6, 1, -20, 70, 34, 66,
  -16, -21, 9, 10, 35, 68, 57, 70,
  -33, -33, -20, -20, -1, 21, -2, 1,
  -11, -32, -11, -12, -2, -5, 4, -4,
  -17, 2, -13, -2, -6, 2, 17, 6,
  -43, -10, 13, 2, 10, 18, -4, 1,
  -1, -22, -11, 12, -18, -30, -38, -61]

def MIDGAME_KING_TABLE : List Int := [
  -79, 28, 20, -18, -68, -41, 2, 16,
  35, -1, -24, -9, -10, -5, -46, -35,
  -11, 29, 2, -20, -24, 7, 27, -27,
  -21, -24, -15, -33, -37, -30, -17, -44,
  -60, -1, -33, -48, -56, -54, -40, -62,
  -17, -17, -27, -56, -54, -37, -18, -33,
  1, 9, -10, -78, -52, -20, 11, 10,
  -18, 44, 15, -66, 10, -34, 29, 17]

def ENDGAME_PAWN_TABLE : List Int := [
  0, 0, 0, 0, 0, 0, 0, 0,
  217, 211, 193, 163, 179, 161, 201, 228,
  115, 122, 104, 82, 68, 65, 100, 102,
  39, 29, 16, 6, -2, 5, 21, 21,
  16, 11, -4, -9, -9, -10, 4, -1,
  5, 9, -7, 1, 0, -6, -1, -10,
  16, 10, 10, 12, 16, 0, 2, -9,
  0, 0, 0, 0, 0, 0, 0, 0]

def ENDGAME_KNIGHT_TABLE : List Int := [
  -71, -46, -16, -34, -38, -33, -77, -121,
  -30, -10, -30, -2, -11, -30, -29, -63,
  -29, -24, 12, 11, -1, -11, -23, -50,
  -21, 4, 27, 27, 27, 13, 10, -22,
  -22, -7, 20, 30, 20, 21, 5, -22,
  -28, -4, -1, 18, 12, -4, -24, -27,
  -51, -24, -12, -6, -2, -24, -28, -54,
  -35, -62, -28, -18, -27, -22, -61, -78]

def ENDGAME_BISHOP_TABLE : List Int := [
  -17, -26, -13, -10, -9, -11, -21, -29,
  -10, -5, 9, -15, -4, -16, -5, -17,
  2, -10, 0, -1, -2, 7, 0, 5,
  -4, 11, 15, 11, 17, 12, 4, 2,
  -7, 4, 16, 23, 9, 12, -4, -11,
  -15, -4, 10, 12, 16, 4, -9, -18,
  -17, -22, -9, -1, 5, -11, -18, -33,
  -28, -11, -28, -6, -11, -20, -6, -21]

def ENDGAME_ROOK_TABLE : List Int := [
  16, 12, 22, 18, 15, 15, 10, 6,
  13, 16, 16, 13, -4, 4, 10, 4,
  9, 9, 9, 6, 5, -4, -6, -4,
  5, 4, 16, 1, 2, 1, -1, 2,
  4, 6, 10, 5, -6, -7, -10, -13,
  -5, 0, -6, -1, -9, -15, -10, -20,
  -7, -7, 0, 2, -11, -11, -13, -4,
  -11, 2, 4, -1, -6, -16, 5, -24]

def ENDGAME_QUEEN_TABLE : List Int := [
  -11, 27, 27, 33, 33, 23, 12, 24,
  -21, 24, 39, 50, 71, 30, 37, 0,
  -24, 7, 11, 60, 57, 43, 23, 11,
  4, 27, 29, 55, 70, 49, 70, 44,
  -22, 34, 23, 57, 38, 41, 48, 28,
  -20, -33, 18, 7, 11, 21, 12, 6,
  -27, -28, -37, -20, -20, -28, -44, -39,
  -40, -34, -27, -52, -6, -39, -24, -50]

def ENDGAME_KING_TABLE : List Int := [
  -90, -43, -22, -22, -13, 18, 5, -21,
  -15, 21, 17, 21, 21, 46, 28, 13,
  12, 21, 28, 18, 24, 55, 54, 16,
  -10, 27, 29, 33, 32, 40, 32, 4,
  -22, -5, 26, 29, 33, 28, 11, -13,
  -23, -4, 13, 26, 28, 20, 9, -11,
  -33, -13, 5, 16, 17, 5, -6, -21,
  -65, -41, -26, -13, -34, -17, -29, -52]

def HASH_VALUES : List Nat := [
  0x9D39247E33776D41, 0x2AF7398005AAA5C7, 0x44DB015024623547, 0x9C15F73E62A76AE2,
  0x75834465489C0C89, 0x3290AC3A203001BF, 0x0FBBAD1F61042279, 0xE83A908FF2FB60CA,
  0x0D7E765D58755C10, 0x1A083822CEAFE02D, 0x9605D5F0E25EC3B0, 0xD021FF5CD13A2ED5,
  0x40BDF15D4A672E32, 0x011355146FD56395, 0x5DB4832046F3D9E5, 0x239F8B2D7FF719CC,
  0x05D1A1AE85B49AA1, 0x679F848F6E8FC971, 0x7449BBFF801FED0B, 0x7D11CDB1C3B7ADF0,
  0x82C7709E781EB7CC, 0xF3218F1C9510786C, 0x331478F3AF51BBE6, 0x4BB38DE5E7219443,
  0xAA649C6EBCFD50FC, 0x8DBD98A352AFD40B, 0x87D2074B81D79217, 0x19F3C751D3E92AE1,
  0xB4AB30F062B19ABF, 0x7B0500AC42047AC4, 0xC9452CA81A09D85D, 0x24AA6C514DA27500,
  0x4C9F34427501B447, 0x14A68FD73C910841, 0xA71B9B83461CBD93, 0x03488B95B0F1850F,
  0x637B2B34FF93C040, 0x09D1BC9A3DD90A94, 0x3575668334A1DD3B, 0x735E2B97A4C45A23,
  0x18727070F1BD400B, 0x1FCBACD259BF02E7, 0xD310A7C2CE9B6555, 0xBF983FE0FE5D8244,
  0x9F74D14F7454A824, 0x51EBDC4AB9BA3035, 0x5C82C505DB9AB0FA, 0xFCF7FE8A3430B241,
  0x3253A729B9BA3DDE, 0x8C74C368081B3075, 0xB9BC6C87167C33E7, 0x7EF48F2B83024E20,
  0x11D505D4C351BD7F, 0x6568FCA92C76A243, 0x4DE0B0F40F32A7B8, 0x96D693460CC37E5D,
  0x42E240CB63689F2F, 0x6D2BDCDAE2919661, 0x42880B0236E4D951, 0x5F0F4A5898171BB6,
  0x39F890F579F92F88, 0x93C5B5F47356388B, 0x63DC359D8D231B78, 0xEC16CA8AEA98AD76,
  0x5355F900C2A82DC7, 0x07FB9F855A997142, 0x5093417AA8A7ED5E, 0x7BCBC38DA25A7F3C,
  0x19FC8A768CF4B6D4, 0x637A7780DECFC0D9, 0x8249A47AEE0E41F7, 0x79AD695501E7D1E8,
  0x14ACBAF4777D5776, 0xF145B6BECCDEA195, 0xDABF2AC8201752FC, 0x24C3C94DF9C8D3F6,
  0xBB6E2924F03912EA, 0x0CE26C0B95C980D9, 0xA49CD132BFBF7CC4, 0xE99D662AF4243939,
  0x27E6AD7891165C3F, 0x8535F040B9744FF1, 0x54B3F4FA5F40D873, 0x72B12C32127FED2B,
  0xEE954D3C7B411F47, 0x9A85AC909A24EAA1, 0x70AC4CD9F04F21F5, 0xF9B89D3E99A075C2,
  0x87B3E2B2B5C907B1, 0xA366E5B8C54F48B8, 0xAE4A9346CC3F7CF2, 0x1920C04D47267BBD,
  0x87BF02C6B49E2AE9, 0x092237AC237F3859, 0xFF07F64EF8ED14D0, 0x8DE8DCA9F03CC54E,
  0x9C1633264DB49C89, 0xB3F22C3D0B0B38ED, 0x390E5FB44D01144B, 0x5BFEA5B4712768E9,
  0x1E1032911FA78984, 0x9A74ACB964E78CB3, 0x4F80F7A035DAFB04, 0x6304D09A0B3738C4,
  0x2171E64683023A08, 0x5B9B63EB9CEFF80C, 0x506AACF489889342, 0x1881AFC9A3A701D6,
  0x6503080440750644, 0xDFD395339CDBF4A7, 0xEF927DBCF00C20F2, 0x7B32F7D1E03680EC,
  0xB9FD7620E7316243, 0x05A7E8A57DB91B77, 0xB5889C6E15630A75, 0x4A750A09CE9573F7,
  0xCF464CEC899A2F8A, 0xF538639CE705B824, 0x3C79A0FF5580EF7F, 0xEDE6C87F8477609D,
  0x799E81F05BC93F31, 0x86536B8CF3428A8C, 0x97D7374C60087B73, 0xA246637CFF328532,
  0x043FCAE60CC0EBA0, 0x920E449535DD359E, 0x70EB093B15B290CC, 0x73A1921916591CBD,
  0x56436C9FE1A1AA8D, 0xEFAC4B70633B8F81, 0xBB215798D45DF7AF, 0x45F20042F24F1768,
  0x930F80F4E8EB7462, 0xFF6712FFCFD75EA1, 0xAE623FD67468AA70, 0xDD2C5BC84BC8D8FC,
  0x7EED120D54CF2DD9, 0x22FE545401165F1C, 0xC91800E98FB99929, 0x808BD68E6AC10365,
  0xDEC468145B7605F6, 0x1BEDE3A3AEF53302, 0x43539603D6C55602, 0xAA969B5C691CCB7A,
  0xA87832D392EFEE56, 0x65942C7B3C7E11AE, 0xDED2D633CAD004F6, 0x21F08570F420E565,
  0xB415938D7DA94E3C, 0x91B859E59ECB6350, 0x10CFF333E0ED804A, 0x28AED140BE0BB7DD,
  0xC5CC1D89724FA456, 0x5648F680F11A2741, 0x2D255069F0B7DAB3, 0x9BC5A38EF729ABD4,
  0xEF2F054308F6A2BC, 0xAF2042F5CC5C2858, 0x480412BAB7F5BE2A, 0xAEF3AF4A563DFE43,
  0x19AFE59AE451497F, 0x52593803DFF1E840, 0xF4F076E65F2CE6F0, 0x11379625747D5AF3,
  0xBCE5D2248682C115, 0x9DA4243DE836994F, 0x066F70B33FE09017, 0x4DC4DE189B671A1C,
  0x51039AB7712457C3, 0xC07A3F80C31FB4B4, 0xB46EE9C5E64A6E7C, 0xB3819A42ABE61C87,
  0x21A007933A522A20, 0x2DF16F761598AA4F, 0x763C4A1371B368FD, 0xF793C46702E086A0,
  0xD7288E012AEB8D31, 0xDE336A2A4BC1C44B, 0x0BF692B38D079F23, 0x2C604A7A177326B3,
  0x4850E73E03EB6064, 0xCFC447F1E53C8E1B, 0xB05CA3F564268D99, 0x9AE182C8BC9474E8,
  0xA4FC4BD4FC5558CA, 0xE755178D58FC4E76, 0x69B97DB1A4C03DFE, 0xF9B5B7C4ACC67C96,
  0xFC6A82D64B8655FB, 0x9C684CB6C4D24417, 0x8EC97D2917456ED0, 0x6703DF9D2924E97E,
  0xC547F57E42A7444E, 0x78E37644E7CAD29E, 0xFE9A44E9362F05FA, 0x08BD35CC38336615,
  0x9315E5EB3A129ACE, 0x94061B871E04DF75, 0xDF1D9F9D784BA010, 0x3BBA57B68871B59D,
  0xD2B7ADEEDED1F73F, 0xF7A255D83BC373F8, 0xD7F4F2448C0CEB81, 0xD95BE88CD210FFA7,
  0x336F52F8FF4728E7, 0xA74049DAC312AC71, 0xA2F61BB6E437FDB5, 0x4F2A5CB07F6A35B3,
  0x87D380BDA5BF7859, 0x16B9F7E06C453A21, 0x7BA2484C8A0FD54E, 0xF3A678CAD9A2E38C,
  0x39B0BF7DDE437BA2, 0xFCAF55C1BF8A4424, 0x18FCF680573FA594, 0x4C0563B89F495AC3,
  0x40E087931A00930D, 0x8CFFA9412EB642C1, 0x68CA39053261169F, 0x7A1EE967D27579E2,
  0x9D1D60E5076F5B6F, 0x3810E399B6F65BA2, 0x32095B6D4AB5F9B1, 0x35CAB62109DD038A,
  0xA90B24499FCFAFB1, 0x77A225A07CC2C6BD, 0x513E5E634C70E331, 0x4361C0CA3F692F12,
  0xD941ACA44B20A45B, 0x528F7C8602C5807B, 0x52AB92BEB9613989, 0x9D1DFA2EFC557F73,
  0x722FF175F572C348, 0x1D1260A51107FE97, 0x7A249A57EC0C9BA2, 0x04208FE9E8F7F2D6,
  0x5A110C6058B920A0, 0x0CD9A497658A5698, 0x56FD23C8F9715A4C, 0x284C847B9D887AAE,
  0x04FEABFBBDB619CB, 0x742E1E651C60BA83, 0x9A9632E65904AD3C, 0x881B82A13B51B9E2,
  0x506E6744CD974924, 0xB0183DB56FFC6A79, 0x0ED9B915C66ED37E, 0x5E11E86D5873D484,
  0xF678647E3519AC6E, 0x1B85D488D0F20CC5, 0xDAB9FE6525D89021, 0x0D151D86ADB73615,
  0xA865A54EDCC0F019, 0x93C42566AEF98FFB, 0x99E7AFEABE000731, 0x48CBFF086DDF285A,
  0x7F9B6AF1EBF78BAF, 0x58627E1A149BBA21, 0x2CD16E2ABD791E33, 0xD363EFF5F0977996,
  0x0CE2A38C344A6EED, 0x1A804AADB9CFA741, 0x907F30421D78C5DE, 0x501F65EDB3034D07,
  0x37624AE5A48FA6E9, 0x957BAF61700CFF4E, 0x3A6C27934E31188A, 0xD49503536ABCA345,
  0x088E049589C432E0, 0xF943AEE7FEBF21B8, 0x6C3B8E3E336139D3, 0x364F6FFA464EE52E,
  0xD60F6DCEDC314222, 0x56963B0DCA418FC0, 0x16F50EDF91E513AF, 0xEF1955914B609F93,
  0x565601C0364E3228, 0xECB53939887E8175, 0xBAC7A9A18531294B, 0xB344C470397BBA52,
  0x65D34954DAF3CEBD, 0xB4B81B3FA97511E2, 0xB422061193D6F6A7, 0x071582401C38434D,
  0x7A13F18BBEDC4FF5, 0xBC4097B116C524D2, 0x59B97885E2F2EA28, 0x99170A5DC3115544,
  0x6F423357E7C6A9F9, 0x325928EE6E6F8794, 0xD0E4366228B03343, 0x565C31F7DE89EA27,
  0x30F5611484119414, 0xD873DB391292ED4F, 0x7BD94E1D8E17DEBC, 0xC7D9F16864A76E94,
  0x947AE053EE56E63C, 0xC8C93882F9475F5F, 0x3A9BF55BA91F81CA, 0xD9A11FBB3D9808E4,
  0x0FD22063EDC29FCA, 0xB3F256D8ACA0B0B9, 0xB03031A8B4516E84, 0x35DD37D5871448AF,
  0xE9F6082B05542E4E, 0xEBFAFA33D7254B59, 0x9255ABB50D532280, 0xB9AB4CE57F2D34F3,
  0x693501D628297551, 0xC62C58F97DD949BF, 0xCD454F8F19C5126A, 0xBBE83F4ECC2BDECB,
  0xDC842B7E2819E230, 0xBA89142E007503B8, 0xA3BC941D0A5061CB, 0xE9F6760E32CD8021,
  0x09C7E552BC76492F, 0x852F54934DA55CC9, 0x8107FCCF064FCF56, 0x098954D51FFF6580,
  0x23B70EDB1955C4BF, 0xC330DE426430F69D, 0x4715ED43E8A45C0A, 0xA8D7E4DAB780A08D,
  0x0572B974F03CE0BB, 0xB57D2E985E1419C7, 0xE8D9ECBE2CF3D73F, 0x2FE4B17170E59750,
  0x11317BA87905E790, 0x7FBF21EC8A1F45EC, 0x1725CABFCB045B00, 0x964E915CD5E2B207,
  0x3E2B8BCBF016D66D, 0xBE7444E39328A0AC, 0xF85B2B4FBCDE44B7, 0x49353FEA39BA63B1,
  0x1DD01AAFCD53486A, 0x1FCA8A92FD719F85, 0xFC7C95D827357AFA, 0x18A6A990C8B35EBD,
  0xCCCB7005C6B9C28D, 0x3BDBB92C43B17F26, 0xAA70B5B4F89695A2, 0xE94C39A54A98307F,
  0xB7A0B174CFF6F36E, 0xD4DBA84729AF48AD, 0x2E18BC1AD9704A68, 0x2DE0966DAF2F8B1C,
  0xB9C11D5B1E43A07E, 0x64972D68DEE33360, 0x94628D38D0C20584, 0xDBC0D2B6AB90A559,
  0xD2733C4335C6A72F, 0x7E75D99D94A70F4D, 0x6CED1983376FA72B, 0x97FCAACBF030BC24,
  0x7B77497B32503B12, 0x8547EDDFB81CCB94, 0x79999CDFF70902CB, 0xCFFE1939438E9B24,
  0x829626E3892D95D7, 0x92FAE24291F2B3F1, 0x63E22C147B9C3403, 0xC678B6D860284A1C,
  0x5873888850659AE7, 0x0981DCD296A8736D, 0x9F65789A6509A440, 0x9FF38FED72E9052F,
  0xE479EE5B9930578C, 0xE7F28ECD2D49EECD, 0x56C074A581EA17FE, 0x5544F7D774B14AEF,
  0x7B3F0195FC6F290F, 0x12153635B2C0CF57, 0x7F5126DBBA5E0CA7, 0x7A76956C3EAFB413,
  0x3D5774A11D31AB39, 0x8A1B083821F40CB4, 0x7B4A38E32537DF62, 0x950113646D1D6E03,
  0x4DA8979A0041E8A9, 0x3BC36E078F7515D7, 0x5D0A12F27AD310D1, 0x7F9D1A2E1EBE1327,
  0xDA3A361B1C5157B1, 0xDCDD7D20903D0C25, 0x36833336D068F707, 0xCE68341F79893389,
  0xAB9090168DD05F34, 0x43954B3252DC25E5, 0xB438C2B67F98E5E9, 0x10DCD78E3851A492,
  0xDBC27AB5447822BF, 0x9B3CDB65F82CA382, 0xB67B7896167B4C84, 0xBFCED1B0048EAC50,
  0xA9119B60369FFEBD, 0x1FFF7AC80904BF45, 0xAC12FB171817EEE7, 0xAF08DA9177DDA93D,
  0x1B0CAB936E65C744, 0xB559EB1D04E5E932, 0xC37B45B3F8D6F2BA, 0xC3A9DC228CAAC9E9,
  0xF3B8B6675A6507FF, 0x9FC477DE4ED681DA, 0x67378D8ECCEF96CB, 0x6DD856D94D259236,
  0xA319CE15B0B4DB31, 0x073973751F12DD5E, 0x8A8E849EB32781A5, 0xE1925C71285279F5,
  0x74C04BF1790C0EFE, 0x4DDA48153C94938A, 0x9D266D6A1CC0542C, 0x7440FB816508C4FE,
  0x13328503DF48229F, 0xD6BF7BAEE43CAC40, 0x4838D65F6EF6748F, 0x1E152328F3318DEA,
  0x8F8419A348F296BF, 0x72C8834A5957B511, 0xD7A023A73260B45C, 0x94EBC8ABCFB56DAE,
  0x9FC10D0F989993E0, 0xDE68A2355B93CAE6, 0xA44CFE79AE538BBE, 0x9D1D84FCCE371425,
  0x51D2B1AB2DDFB636, 0x2FD7E4B9E72CD38C, 0x65CA5B96B7552210, 0xDD69A0D8AB3B546D,
  0x604D51B25FBF70E2, 0x73AA8A564FB7AC9E, 0x1A8C1E992B941148, 0xAAC40A2703D9BEA0,
  0x764DBEAE7FA4F3A6, 0x1E99B96E70A9BE8B, 0x2C5E9DEB57EF4743, 0x3A938FEE32D29981,
  0x26E6DB8FFDF5ADFE, 0x469356C504EC9F9D, 0xC8763C5B08D1908C, 0x3F6C6AF859D80055,
  0x7F7CC39420A3A545, 0x9BFB227EBDF4C5CE, 0x89039D79D6FC5C5C, 0x8FE88B57305E2AB6,
  0xA09E8C8C35AB96DE, 0xFA7E393983325753, 0xD6B6D0ECC617C699, 0xDFEA21EA9E7557E3,
  0xB67C1FA481680AF8, 0xCA1E3785A9E724E5, 0x1CFC8BED0D681639, 0xD18D8549D140CAEA,
  0x4ED0FE7E9DC91335, 0xE4DBF0634473F5D2, 0x1761F93A44D5AEFE, 0x53898E4C3910DA55,
  0x734DE8181F6EC39A, 0x2680B122BAA28D97, 0x298AF231C85BAFAB, 0x7983EED3740847D5,
  0x66C1A2A1A60CD889, 0x9E17E49642A3E4C1, 0xEDB454E7BADC0805, 0x50B704CAB602C329,
  0x4CC317FB9CDDD023, 0x66B4835D9EAFEA22, 0x219B97E26FFC81BD, 0x261E4E4C0A333A9D,
  0x1FE2CCA76517DB90, 0xD7504DFA8816EDBB, 0xB9571FA04DC089C8, 0x1DDC0325259B27DE,
  0xCF3F4688801EB9AA, 0xF4F5D05C10CAB243, 0x38B6525C21A42B0E, 0x36F60E2BA4FA6800,
  0xEB3593803173E0CE, 0x9C4CD6257C5A3603, 0xAF0C317D32ADAA8A, 0x258E5A80C7204C4B,
  0x8B889D624D44885D, 0xF4D14597E660F855, 0xD4347F66EC8941C3, 0xE699ED85B0DFB40D,
  0x2472F6207C2D0484, 0xC2A1E7B5B459AEB5, 0xAB4F6451CC1D45EC, 0x63767572AE3D6174,
  0xA59E0BD101731A28, 0x116D0016CB948F09, 0x2CF9C8CA052F6E9F, 0x0B090A7560A968E3,
  0xABEEDDB2DDE06FF1, 0x58EFC10B06A2068D, 0xC6E57A78FBD986E0, 0x2EAB8CA63CE802D7,
  0x14A195640116F336, 0x7C0828DD624EC390, 0xD74BBE77E6116AC7, 0x804456AF10F5FB53,
  0xEBE9EA2ADF4321C7, 0x03219A39EE587A30, 0x49787FEF17AF9924, 0xA1E9300CD8520548,
  0x5B45E522E4B1B4EF, 0xB49C3B3995091A36, 0xD4490AD526F14431, 0x12A8F216AF9418C2,
  0x001F837CC7350524, 0x1877B51E57A764D5, 0xA2853B80F17F58EE, 0x993E1DE72D36D310,
  0xB3598080CE64A656, 0x252F59CF0D9F04BB, 0xD23C8E176D113600, 0x1BDA0492E7E4586E,
  0x21E0BD5026C619BF, 0x3B097ADAF088F94E, 0x8D14DEDB30BE846E, 0xF95CFFA23AF5F6F4,
  0x3871700761B3F743, 0xCA672B91E9E4FA16, 0x64C8E531BFF53B55, 0x241260ED4AD1E87D,
  0x106C09B972D2E822, 0x7FBA195410E5CA30, 0x7884D9BC6CB569D8, 0x0647DFEDCD894A29,
  0x63573FF03E224774, 0x4FC8E9560F91B123, 0x1DB956E450275779, 0xB8D91274B9E9D4FB,
  0xA2EBEE47E2FBFCE1, 0xD9F1F30CCD97FB09, 0xEFED53D75FD64E6B, 0x2E6D02C36017F67F,
  0xA9AA4D20DB084E9B, 0xB64BE8D8B25396C1, 0x70CB6AF7C2D5BCF0, 0x98F076A4F7A2322E,
  0xBF84470805E69B5F, 0x94C3251F06F90CF3, 0x3E003E616A6591E9, 0xB925A6CD0421AFF3,
  0x61BDD1307C66E300, 0xBF8D5108E27E0D48, 0x240AB57A8B888B20, 0xFC87614BAF287E07,
  0xEF02CDD06FFDB432, 0xA1082C0466DF6C0A, 0x8215E577001332C8, 0xD39BB9C3A48DB6CF,
  0x2738259634305C14, 0x61CF4F94C97DF93D, 0x1B6BACA2AE4E125B, 0x758F450C88572E0B,
  0x959F587D507A8359, 0xB063E962E045F54D, 0x60E8ED72C0DFF5D1, 0x7B64978555326F9F,
  0xFD080D236DA814BA, 0x8C90FD9B083F4558, 0x106F72FE81E2C590, 0x7976033A39F7D952,
  0xA4EC0132764CA04B, 0x733EA705FAE4FA77, 0xB4D8F77BC3E56167, 0x9E21F4F903B33FD9,
  0x9D765E419FB69F6D, 0xD30C088BA61EA5EF, 0x5D94337FBFAF7F5B, 0x1A4E4822EB4D7A59,
  0x6FFE73E81B637FB3, 0xDDF957BC36D8B9CA, 0x64D0E29EEA8838B3, 0x08DD9BDFD96B9F63,
  0x087E79E5A57D1D13, 0xE328E230E3E2B3FB, 0x1C2559E30F0946BE, 0x720BF5F26F4D2EAA,
  0xB0774D261CC609DB, 0x443F64EC5A371195, 0x4112CF68649A260E, 0xD813F2FAB7F5C5CA,
  0x660D3257380841EE, 0x59AC2C7873F910A3, 0xE846963877671A17, 0x93B633ABFA3469F8,
  0xC0C0F5A60EF4CDCF, 0xCAF21ECD4377B28C, 0x57277707199B8175, 0x506C11B9D90E8B1D,
  0xD83CC2687A19255F, 0x4A29C6465A314CD1, 0xED2DF21216235097, 0xB5635C95FF7296E2,
  0x22AF003AB672E811, 0x52E762596BF68235, 0x9AEBA33AC6ECC6B0, 0x944F6DE09134DFB6,
  0x6C47BEC883A7DE39, 0x6AD047C430A12104, 0xA5B1CFDBA0AB4067, 0x7C45D833AFF07862,
  0x5092EF950A16DA0B, 0x9338E69C052B8E7B, 0x455A4B4CFE30E3F5, 0x6B02E63195AD0CF8,
  0x6B17B224BAD6BF27, 0xD1E0CCD25BB9C169, 0xDE0C89A556B9AE70, 0x50065E535A213CF6,
  0x9C1169FA2777B874, 0x78EDEFD694AF1EED, 0x6DC93D9526A50E68, 0xEE97F453F06791ED,
  0x32AB0EDB696703D3, 0x3A6853C7E70757A7, 0x31865CED6120F37D, 0x67FEF95D92607890,
  0x1F2B1D1F15F6DC9C, 0xB69E38A8965C6B65, 0xAA9119FF184CCCF4, 0xF43C732873F24C13,
  0xFB4A3D794A9A80D2, 0x3550C2321FD6109C, 0x371F77E76BB8417E, 0x6BFA9AAE5EC05779,
  0xCD04F3FF001A4778, 0xE3273522064480CA, 0x9F91508BFFCFC14A, 0x049A7F41061A9E60,
  0xFCB6BE43A9F2FE9B, 0x08DE8A1C7797DA9B, 0x8F9887E6078735A1, 0xB5B4071DBFC73A66,
  0x230E343DFBA08D33, 0x43ED7F5A0FAE657D, 0x3A88A0FBBCB05C63, 0x21874B8B4D2DBC4F,
  0x1BDEA12E35F6A8C9, 0x53C065C6C8E63528, 0xE34A1D250E7A8D6B, 0xD6B04D3B7651DD7E,
  0x5E90277E7CB39E2D, 0x2C046F22062DC67D, 0xB10BB459132D0A26, 0x3FA9DDFB67E2F199,
  0x0E09B88E1914F7AF, 0x10E8B35AF3EEAB37, 0x9EEDECA8E272B933, 0xD4C718BC4AE8AE5F,
  0x81536D601170FC20, 0x91B534F885818A06, 0xEC8177F83F900978, 0x190E714FADA5156E,
  0xB592BF39B0364963, 0x89C350C893AE7DC1, 0xAC042E70F8B383F2, 0xB49B52E587A1EE60,
  0xFB152FE3FF26DA89, 0x3E666E6F69AE2C15, 0x3B544EBE544C19F9, 0xE805A1E290CF2456,
  0x24B33C9D7ED25117, 0xE74733427B72F0C1, 0x0A804D18B7097475, 0x57E3306D881EDB4F,
  0x4AE7D6A36EB5DBCB, 0x2D8D5432157064C8, 0xD1E649DE1E7F268B, 0x8A328A1CEDFE552C,
  0x07A3AEC79624C7DA, 0x84547DDC3E203C94, 0x990A98FD5071D263, 0x1A4FF12616EEFC89,
  0xF6F7FD1431714200, 0x30C05B1BA332F41C, 0x8D2636B81555A786, 0x46C9FEB55D120902,
  0xCCEC0A73B49C9921, 0x4E9D2827355FC492, 0x19EBB029435DCB0F, 0x4659D2B743848A2C,
  0x963EF2C96B33BE31, 0x74F85198B05A2E7D, 0x5A0F544DD2B1FB18, 0x03727073C2E134B1,
  0xC7F6AA2DE59AEA61, 0x352787BAA0D7C22F, 0x9853EAB63B5E0B35, 0xABBDCDD7ED5C0860,
  0xCF05DAF5AC8D77B0, 0x49CAD48CEBF4A71E, 0x7A4C10EC2158C4A6, 0xD9E92AA246BF719E,
  0x13AE978D09FE5557, 0x730499AF921549FF, 0x4E4B705B92903BA4, 0xFF577222C14F0A3A,
  0x55B6344CF97AAFAE, 0xB862225B055B6960, 0xCAC09AFBDDD2CDB4, 0xDAF8E9829FE96B5F,
  0xB5FDFC5D3132C498, 0x310CB380DB6F7503, 0xE87FBB46217A360E, 0x2102AE466EBB1148,
  0xF8549E1A3AA5E00D, 0x07A69AFDCC42261A, 0xC4C118BFE78FEAAE, 0xF9F4892ED96BD438,
  0x1AF3DBE25D8F45DA, 0xF5B4B0B0D2DEEEB4, 0x962ACEEFA82E1C84, 0x046E3ECAAF453CE9,
  0xF05D129681949A4C, 0x964781CE734B3C84, 0x9C2ED44081CE5FBD, 0x522E23F3925E319E,
  0x177E00F9FC32F791, 0x2BC60A63A6F3B3F2, 0x222BBFAE61725606, 0x486289DDCC3D6780,
  0x7DC7785B8EFDFC80, 0x8AF38731C02BA980, 0x1FAB64EA29A2DDF7, 0xE4D9429322CD065A,
  0x9DA058C67844F20C, 0x24C0E332B70019B0, 0x233003B5A6CFE6AD, 0xD586BD01C5C217F6,
  0x5E5637885F29BC2B, 0x7EBA726D8C94094B, 0x0A56A5F0BFE39272, 0xD79476A84EE20D06,
  0x9E4C1269BAA4BF37, 0x17EFEE45B0DEE640, 0x1D95B0A5FCF90BC6, 0x93CBE0B699C2585D,
  0x65FA4F227A2B6D79, 0xD5F9E858292504D5, 0xC2B5A03F71471A6F, 0x59300222B4561E00,
  0xCE2F8642CA0712DC, 0x7CA9723FBB2E8988, 0x2785338347F2BA08, 0xC61BB3A141E50E8C,
  0x150F361DAB9DEC26, 0x9F6A419D382595F4, 0x64A53DC924FE7AC9, 0x142DE49FFF7A7C3D,
  0x0C335248857FA9E7, 0x0A9C32D5EAE45305, 0xE6C42178C4BBB92E, 0x71F1CE2490D20B07,
  0xF1BCC3D275AFE51A, 0xE728E8C83C334074, 0x96FBF83A12884624, 0x81A1549FD6573DA5,
  0x5FA7867CAF35E149, 0x56986E2EF3ED091B, 0x917F1DD5F8886C61, 0xD20D8C88C8FFE65F,
  0x31D71DCE64B2C310, 0xF165B587DF898190, 0xA57E6339DD2CF3A0, 0x1EF6E6DBB1961EC9,
  0x70CC73D90BC26E24, 0xE21A6B35DF0C3AD7, 0x003A93D8B2806962, 0x1C99DED33CB890A1,
  0xCF3145DE0ADD4289, 0xD0E4427A5514FB72, 0x77C621CC9FB3A483, 0x67A34DAC4356550B,
  0xF8D626AAAF278509]

/-- `MIDGAME_PIECE_SQUARE_TABLES` dict (the 8 x 8 tables as loaded). -/
def MIDGAME_PIECE_SQUARE_TABLES (c : Char) : List Int :=
  if c == 'P' then MIDGAME_PAWN_TABLE
  else if c == 'N' then MIDGAME_KNIGHT_TABLE
  else if c == 'B' then MIDGAME_BISHOP_TABLE
  else if c == 'R' then MIDGAME_ROOK_TABLE
  else if c == 'Q' then MIDGAME_QUEEN_TABLE
  else if c == 'K' then MIDGAME_KING_TABLE
  else []

/-- `ENDGAME_PIECE_SQUARE_TABLES` dict (the 8 x 8 tables as loaded). -/
def ENDGAME_PIECE_SQUARE_TABLES (c : Char) : List Int :=
  if c == 'P' then ENDGAME_PAWN_TABLE
  else if c == 'N' then ENDGAME_KNIGHT_TABLE
  else if c == 'B' then ENDGAME_BISHOP_TABLE
  else if c == 'R' then ENDGAME_ROOK_TABLE
  else if c == 'Q' then ENDGAME_QUEEN_TABLE
  else if c == 'K' then ENDGAME_KING_TABLE
  else []

/-- The one-time `isready` initialization pads each 8 x 8 table with zeros
to the 10 x 12 board layout: two blank rows, then each table row framed by
a zero on either side, then two blank rows. -/
def pad_table (t : List Int) : List Int :=
  let blank_row : List Int := List.replicate 10 0
  blank_row ++ blank_row ++
    ((List.range 8).flatMap fun row => 0 :: ((t.drop (8 * row)).take 8 ++ [0])) ++
    blank_row ++ blank_row

/-- The midgame piece-square tables after the `isready` padding; every
engine function below runs after that initialization, so table lookups at
board indices are modelled against the padded tables. -/
def MPST (c : Char) : List Int := pad_table (MIDGAME_PIECE_SQUARE_TABLES c)

/-- The endgame piece-square tables after the `isready` padding. -/
def EPST (c : Char) : List Int := pad_table (ENDGAME_PIECE_SQUARE_TABLES c)

/-- Table lookup at an `Int` index (0 out of range, where Python raises;
the claims prove the accesses made by the engine are in range). -/
def tget (t : List Int) (i : Int) : Int :=
  if 0 ≤ i then t.getD i.toNat 0 else 0

def MOP_UP_SCORE : Int := ENDGAME_PAWN_VALUE * 2

def CHECKMATE_UPPER : Int := ENDGAME_KING_VALUE + 10 * ENDGAME_QUEEN_VALUE
def CHECKMATE_LOWER : Int := ENDGAME_KING_VALUE - 10 * ENDGAME_QUEEN_VALUE

def KNIGHT_PHASE : Int := 1
def BISHOP_PHASE : Int := 1
def ROOK_PHASE : Int := 2
def QUEEN_PHASE : Int := 4
def TOTAL_PHASE : Int :=
  4 * KNIGHT_PHASE + 4 * BISHOP_PHASE + 4 * ROOK_PHASE + 2 * QUEEN_PHASE

/-- `manhattan_distance(square1, square2)`. -/
def manhattan_distance (square1 square2 : Int) : Int :=
  ((square1 % 10 - square2 % 10).natAbs : Int) +
    ((square1 / 10 - square2 / 10).natAbs : Int)

/-- `game_phase(position)`: piece counts rescaled to 0..256. -/
def game_phase (position : Board) : Int :=
  let phase := TOTAL_PHASE
  let phase := phase - ((position.count 'N' : Int) + (position.count 'n' : Int)) * KNIGHT_PHASE
  let phase := phase - ((position.count 'B' : Int) + (position.count 'b' : Int)) * BISHOP_PHASE
  let phase := phase - ((position.count 'R' : Int) + (position.count 'r' : Int)) * ROOK_PHASE
  let phase := phase - ((position.count 'Q' : Int) + (position.count 'q' : Int)) * QUEEN_PHASE
  (phase * 256 + (TOTAL_PHASE / 2)) / TOTAL_PHASE

/-- `interpolate(midgame_score, endgame_score, phase)`. -/
def interpolate (midgame_score endgame_score phase : Int) : Int :=
  ((midgame_score * (256 - phase)) + (endgame_score * phase)) / 256

/-- The vertical-mirror index `(11 - (square // 10)) * 10 + (square % 10)`
used by `evaluate_position`/`evaluate_move` to look up opponent pieces in
the (white-oriented) piece-square tables.  It flips the row and keeps the
column. -/
def vmirror (square : Nat) : Nat := (11 - square / 10) * 10 + square % 10

/-- One square's contribution to either accumulator of the
`evaluate_position` loop, generic in the (value, table, tropism) triple:
own pieces add value + PST + tropism toward the opponent king, opponent
pieces subtract their value + vertically-mirrored PST + tropism toward
the own king. -/
def score_term (VAL : Char → Int) (PST : Char → List Int) (TROP : Char → Int)
    (position : Board) (king_square opponent_king_square : Int) (square : Nat) : Int :=
  let piece := getN position square
  if pyIsUpper piece then
    VAL piece + tget (PST piece) (square : Int) +
      TROP piece / manhattan_distance (square : Int) opponent_king_square
  else if pyIsLower piece then
    -(VAL (pyUpper piece) + tget (PST (pyUpper piece)) ((vmirror square : Nat) : Int) +
      TROP (pyUpper piece) / manhattan_distance (square : Int) king_square)
  else 0

/-- The full accumulator of the `evaluate_position` loop (the `for square,
piece in enumerate(position)` sum), generic in the tables. -/
def score_sum (VAL : Char → Int) (PST : Char → List Int) (TROP : Char → Int)
    (position : Board) : Int :=
  let king_square := pyFind position 'K'
  let opponent_king_square := pyFind position 'k'
  ((List.range position.length).map
    (score_term VAL PST TROP position king_square opponent_king_square)).sum

/-- `evaluate_position(position)`: material + PST + tropism accumulators
for midgame and endgame, the mop-up bonus added to a nonzero endgame
score, and phase interpolation. -/
def evaluate_position (position : Board) : Int :=
  let king_square := pyFind position 'K'
  let opponent_king_square := pyFind position 'k'
  let midgame_score :=
    score_sum MIDGAME_PIECE_VALUES MPST MIDGAME_TROPISM_VALUES position
  let endgame_score :=
    score_sum ENDGAME_PIECE_VALUES EPST ENDGAME_TROPISM_VALUES position
  let mop_up_bonus :=
    MOP_UP_SCORE * (14 - manhattan_distance king_square opponent_king_square) / 14
  let endgame_score :=
    if endgame_score > 0 then endgame_score + mop_up_bonus
    else if endgame_score < 0 then endgame_score - mop_up_bonus
    else endgame_score
  interpolate midgame_score endgame_score (game_phase position)

/-- A move `(start_square, end_square, piece_captured, promotion_piece)`.
The two character fields hold board characters; the Python empty string
(used in the null move and for an empty promotion) is modelled by the
space character, which never occurs in those fields of a generated move. -/
structure Move where
  start : Int
  stop : Int
  captured : Char
  promo : Char
deriving DecidableEq, Repr

/-- The null move `(0, 0, "", "")`. -/
def nullMove : Move := ⟨0, 0, ' ', ' '⟩

/-- `evaluate_move(move, position, en_passant)`: PST delta of the moved
piece, captured material, the rook shift for castling, promotion and
en-passant adjustments, interpolated by phase. -/
def evaluate_move (move : Move) (position : Board) (en_passant : Int) : Int :=
  let start_square := move.start
  let end_square := move.stop
  let piece_moved := cellAt position start_square
  let piece_captured := move.captured
  let promotion_piece := move.promo
  let midgame_score :=
    tget (MPST piece_moved) end_square - tget (MPST piece_moved) start_square
  let endgame_score :=
    tget (EPST piece_moved) end_square - tget (EPST piece_moved) start_square
  let midgame_score :=
    if pyIsLower piece_captured then
      midgame_score + MIDGAME_PIECE_VALUES (pyUpper piece_captured) +
        tget (MPST (pyUpper piece_captured)) ((11 - (end_square / 10)) * 10 + (end_square % 10))
    else midgame_score
  let endgame_score :=
    if pyIsLower piece_captured then
      endgame_score + ENDGAME_PIECE_VALUES (pyUpper piece_captured) +
        tget (EPST (pyUpper piece_captured)) ((11 - (end_square / 10)) * 10 + (end_square % 10))
    else endgame_score
  let midgame_score :=
    if piece_moved == 'K' && (start_square - end_square).natAbs == 2 then
      midgame_score + tget (MPST 'R') ((start_square + end_square) / 2) -
        tget (MPST 'R') (if end_square < start_square then A1 else H1)
    else midgame_score
  let endgame_score :=
    if piece_moved == 'K' && (start_square - end_square).natAbs == 2 then
      endgame_score + tget (EPST 'R') ((start_square + end_square) / 2) -
        tget (EPST 'R') (if end_square < start_square then A1 else H1)
    else endgame_score
  let midgame_score :=
    if piece_moved == 'P' && A8 ≤ end_square && end_square ≤ H8 then
      midgame_score + tget (MPST promotion_piece) end_square - tget (MPST 'P') end_square +
        MIDGAME_PIECE_VALUES promotion_piece - MIDGAME_PIECE_VALUES 'P'
    else midgame_score
  let endgame_score :=
    if piece_moved == 'P' && A8 ≤ end_square && end_square ≤ H8 then
      endgame_score + tget (EPST promotion_piece) end_square - tget (EPST 'P') end_square +
        ENDGAME_PIECE_VALUES promotion_piece - ENDGAME_PIECE_VALUES 'P'
    else endgame_score
  let midgame_score :=
    if piece_moved == 'P' && end_square + SOUTH == en_passant then
      midgame_score +
        tget (MPST 'P') ((11 - ((end_square + SOUTH) / 10)) * 10 + ((end_square + SOUTH) % 10))
    else midgame_score
  let endgame_score :=
    if piece_moved == 'P' && end_square + SOUTH == en_passant then
      endgame_score +
        tget (EPST 'P') ((11 - ((end_square + SOUTH) / 10)) * 10 + ((end_square + SOUTH) % 10))
    else endgame_score
  interpolate midgame_score endgame_score (game_phase position)

/-- One ray of the `generate_moves` scan: the inner
`for end_square in itertools.count(start_square + direction, direction)`
loop, with `end_square` the current square and enough fuel to reach the
sentinel frame (a ray from inside a 120-cell board leaves it in at most
`length` steps, and out-of-range lookups read as sentinels). -/
def ray_moves (position : Board) (castling : List Bool) (en_passant : Int)
    (piece_moved : Char) (start_square : Int) (direction : Int) :
    Nat → Int → List Move
  | 0, _ => []
  | fuel + 1, end_square =>
    let piece_captured := cellAt position end_square
    if pyIsSpace piece_captured || pyIsUpper piece_captured then []
    else if piece_moved == 'P' &&
        (direction == NORTH || direction == NORTH + NORTH) && piece_captured != '.' then []
    else if piece_moved == 'P' && direction == NORTH + NORTH &&
        (start_square < A1 + NORTH || cellAt position (start_square + NORTH) != '.') then []
    else if piece_moved == 'P' &&
        (direction == NORTH + WEST || direction == NORTH + EAST) &&
        piece_captured == '.' && end_square + SOUTH != en_passant then []
    else if piece_moved == 'P' && A8 ≤ end_square && end_square ≤ H8 then
      [⟨start_square, end_square, piece_captured, 'Q'⟩,
       ⟨start_square, end_square, piece_captured, 'R'⟩,
       ⟨start_square, end_square, piece_captured, 'B'⟩,
       ⟨start_square, end_square, piece_captured, 'N'⟩]
    else
      ⟨start_square, end_square, piece_captured, ' '⟩ ::
        (if piece_moved == 'P' || piece_moved == 'N' || piece_moved == 'K' ||
            pyIsLower piece_captured then []
         else
          (if start_square == A1 && cellAt position (end_square + EAST) == 'K' &&
              castling.getD 0 false then
            [⟨end_square + EAST, end_square + WEST, piece_captured, ' '⟩]
           else []) ++
          (if start_square == H1 && cellAt position (end_square + WEST) == 'K' &&
              castling.getD 1 false then
            [⟨end_square + WEST, end_square + EAST, piece_captured, ' '⟩]
           else []) ++
          ray_moves position castling en_passant piece_moved start_square direction
            fuel (end_square + direction))

/-- `generate_moves(position, castling, en_passant)` before the final
sort: all pseudo-legal moves in scan order. -/
def generate_moves_unsorted (position : Board) (castling : List Bool)
    (en_passant : Int) : List Move :=
  (List.range position.length).flatMap fun start_square =>
    if pyIsUpper (getN position start_square) then
      let piece_moved := getN position start_square
      (PIECE_DIRECTIONS piece_moved).flatMap fun direction =>
        ray_moves position castling en_passant piece_moved (start_square : Int) direction
          (position.length + 1) ((start_square : Int) + direction)
    else []

/-- Stable insertion of `a` into a list: `a` is placed before the first
element it strictly precedes, after any earlier element with an equal key. -/
def stable_insert (before : Move → Move → Bool) (a : Move) : List Move → List Move
  | [] => [a]
  | b :: rest => if before a b then a :: b :: rest else b :: stable_insert before a rest

/-- Stable sort by repeated insertion, processing the list left to right;
the output of a stable sort is uniquely determined by the comparator and
the input order, so this computes exactly Python's
`list.sort(key=..., reverse=True)`. -/
def stable_sort (before : Move → Move → Bool) (l : List Move) : List Move :=
  l.foldl (fun acc a => stable_insert before a acc) []

/-- `generate_moves(position, castling, en_passant)`: the scan followed by
`move_list.sort(key=evaluate_move, reverse=True)`, i.e. the stable sort
that puts a move strictly earlier exactly when its key is strictly
larger. -/
def generate_moves (position : Board) (castling : List Bool) (en_passant : Int) :
    List Move :=
  stable_sort
    (fun a b => evaluate_move b position en_passant < evaluate_move a position en_passant)
    (generate_moves_unsorted position castling en_passant)

/-- `make_move(move, position, castling, opponent_castling, en_passant,
king_passant)`.  Note that the source resets `en_passant` only inside the
pawn branch: moves by other pieces return the incoming value unchanged. -/
def make_move (move : Move) (position : Board) (castling opponent_castling : List Bool)
    (en_passant _king_passant : Int) : Board × List Bool × List Bool × Int × Int :=
  -- the source sets `king_passant = 0` before any use, so the incoming value is dead

  let start_square := move.start
  let end_square := move.stop
  let promotion_piece := move.promo
  let piece_moved := cellAt position start_square
  let position := setAt position start_square '.'
  let position := setAt position end_square piece_moved
  let castling := if start_square == A1 then castling.set 0 false else castling
  let castling := if start_square == H1 then castling.set 1 false else castling
  let opponent_castling :=
    if end_square == A8 then opponent_castling.set 0 false else opponent_castling
  let opponent_castling :=
    if end_square == H8 then opponent_castling.set 1 false else opponent_castling
  if piece_moved == 'K' then
    let castling := (castling.set 0 false).set 1 false
    if start_square - end_square == 2 then
      let king_passant := (start_square + end_square) / 2
      (swapAt position A1 king_passant, castling, opponent_castling, en_passant, king_passant)
    else if end_square - start_square == 2 then
      let king_passant := (start_square + end_square) / 2
      (swapAt position H1 king_passant, castling, opponent_castling, en_passant, king_passant)
    else (position, castling, opponent_castling, en_passant, 0)
  else if piece_moved == 'P' then
    let position :=
      if end_square == en_passant then setAt position (end_square + SOUTH) '.' else position
    let position :=
      if A8 ≤ end_square && end_square ≤ H8 then setAt position end_square promotion_piece
      else position
    if end_square - start_square == NORTH + NORTH then
      (position, castling, opponent_castling, end_square + SOUTH, 0)
    else (position, castling, opponent_castling, 0, 0)
  else (position, castling, opponent_castling, en_passant, 0)

/-- One iteration of the `rotate_position` board loop at index `i`:
`list_position[119-i], list_position[i] = list_position[i].swapcase(),
list_position[119-i].swapcase()` guarded by `not list_position[i].isspace()`. -/
def rotStep (p : Board) (i : Nat) : Board :=
  if pyIsSpace (getN p i) then p
  else
    let a := getN p i
    let b := getN p (119 - i)
    (p.set (119 - i) (swapcase a)).set i (swapcase b)

/-- The board part of `rotate_position`: the `for i in range(60)` swap loop. -/
def rotateBoard (p : Board) : Board := (List.range 60).foldl rotStep p

/-- `rotate_position(position, castling, opponent_castling, en_passant,
king_passant)`: rotate the board 180 degrees with case swap, swap the
castling pairs, and reflect the two passant squares through `119 - x`. -/
def rotate_position (position : Board) (castling opponent_castling : List Bool)
    (en_passant king_passant : Int) : Board × List Bool × List Bool × Int × Int :=
  (rotateBoard position, opponent_castling, castling, 119 - en_passant, 119 - king_passant)

/-- `king_in_check(position, castling, king_passant)`: after a move and a
rotation, the mover's king is the lowercase `k`; it is attacked if missing,
if some reply reaches it or the `king_passant` square, or, for a castling
move (recognized through `king_passant`), the king's pre-castle square. -/
def king_in_check (position : Board) (castling : List Bool) (king_passant : Int) : Bool :=
  let king_position := pyFind position 'k'
  if king_position == 0 then true
  else
    let castled := king_passant == 23 || king_passant == 25 ||
      king_passant == 24 || king_passant == 26
    let original_king_position : Int :=
      if king_passant == 23 || king_passant == 25 then 24
      else if king_passant == 24 || king_passant == 26 then 25
      else 0
    (generate_moves position castling 0).any fun move =>
      move.stop == king_position || move.stop == king_passant ||
        (castled && move.stop == original_king_position)

/-- `PIECE_ENCODINGS`: the PolyGlot piece codes. -/
def PIECE_ENCODINGS (c : Char) : Nat :=
  if c == 'p' then 0
  else if c == 'P' then 1
  else if c == 'n' then 2
  else if c == 'N' then 3
  else if c == 'b' then 4
  else if c == 'B' then 5
  else if c == 'r' then 6
  else if c == 'R' then 7
  else if c == 'q' then 8
  else if c == 'Q' then 9
  else if c == 'k' then 10
  else if c == 'K' then 11
  else 0

/-- `HASH_VALUES[i]` lookup (indices stay in 0..780 on the engine's
inputs; 0 out of range, where Python raises). -/
def hval (i : Int) : Nat :=
  if 0 ≤ i then HASH_VALUES.getD i.toNat 0 else 0

/-- The piece part of `zobrist_hash`: XOR of the piece-square entry
`HASH_VALUES[64*code + 8*row + file]` over every cell that is neither
whitespace nor empty, with `row = 9 - i // 10` and `file = i % 10 - 1`. -/
def piece_hash (position : Board) : Nat :=
  (List.range position.length).foldl
    (fun h i =>
      let piece := getN position i
      if ¬ pyIsSpace piece && piece != '.' then
        let row : Int := 9 - (i : Int) / 10
        let file : Int := (i : Int) % 10 - 1
        h ^^^ hval (64 * (PIECE_ENCODINGS piece : Int) + 8 * row + file)
      else h)
    0

/-- The castling part of `zobrist_hash`: entries 768..771 in the PolyGlot
order own-kingside, own-queenside, opponent-kingside, opponent-queenside. -/
def castling_hash (castling opponent_castling : List Bool) : Nat :=
  let h : Nat := 0
  let h := if castling.getD 0 false then h ^^^ hval (768 + 1) else h
  let h := if castling.getD 1 false then h ^^^ hval (768 + 0) else h
  let h := if opponent_castling.getD 0 false then h ^^^ hval (768 + 3) else h
  let h := if opponent_castling.getD 1 false then h ^^^ hval (768 + 2) else h
  h

/-- The en-passant part of `zobrist_hash` (after normalization to white's
perspective): the file entry `HASH_VALUES[772 + file]` is XORed in only
when the square is in rows 41..48 with a white pawn diagonally south of
it, or in rows 71..78 with a black pawn diagonally north of it. -/
def en_passant_hash (position : Board) (en_passant : Int) : Nat :=
  if en_passant != 0 && en_passant != 119 then
    if 41 ≤ en_passant && en_passant ≤ 48 then
      if cellAt position (en_passant + SOUTH + EAST) == 'P' then
        hval (772 + (en_passant % 10) - 1)
      else if cellAt position (en_passant + SOUTH + WEST) == 'P' then
        hval (772 + (en_passant % 10) - 1)
      else 0
    else if 71 ≤ en_passant && en_passant ≤ 78 then
      if cellAt position (en_passant + NORTH + EAST) == 'p' then
        hval (772 + (en_passant % 10) - 1)
      else if cellAt position (en_passant + NORTH + WEST) == 'p' then
        hval (772 + (en_passant % 10) - 1)
      else 0
    else 0
  else 0

/-- `zobrist_hash(position, castling, opponent_castling, en_passant,
king_passant, color)`: the PolyGlot hash.  A black-to-move state is first
rotated to white's perspective; the side-to-move entry 780 is XORed in
exactly for white. -/
def zobrist_hash (position : Board) (castling opponent_castling : List Bool)
    (en_passant king_passant : Int) (color : Char) : Nat :=
  let st :=
    if color == 'b' then
      rotate_position position castling opponent_castling en_passant king_passant
    else (position, castling, opponent_castling, en_passant, king_passant)
  let turn_hash : Nat := if color == 'b' then 0 else hval 780
  piece_hash st.1 ^^^ castling_hash st.2.1 st.2.2.1 ^^^
    en_passant_hash st.1 st.2.2.2.1 ^^^ turn_hash

/-- `parse_coordinates(coordinate)`: long-algebraic square to board index. -/
def parse_coordinates (coordinate : List Char) : Int :=
  let file : Int := (coordinate.getD 0 'a').toNat - ('a').toNat
  let rank : Int := ((coordinate.getD 1 '1').toNat - ('0').toNat : Int) - 1
  A1 + file - 10 * rank

/-- The row-filling loop of `load_fen`: place piece characters, expand
digit runs into empty squares. -/
def load_fen_row (row : List Char) (board : Board) (index : Nat) : Board × Nat :=
  row.foldl
    (fun (acc : Board × Nat) piece =>
      if ("PNBRQKpnbrqk".toList).contains piece then
        (acc.1.set acc.2 piece, acc.2 + 1)
      else if ("12345678".toList).contains piece then
        let n := piece.toNat - ('0').toNat
        ((List.range n).foldl (fun (b : Board) k => b.set (acc.2 + k) '.') acc.1, acc.2 + n)
      else acc)
    (board, index)

/-- Split a character list on a separator character (Python
`str.split(sep)` for a one-character separator). -/
def splitOnChar (sep : Char) : List Char → List (List Char)
  | [] => [[]]
  | c :: rest =>
    let r := splitOnChar sep rest
    if c == sep then [] :: r
    else (c :: r.headD []) :: r.tail

/-- `load_fen(fen)`: build the 120-cell board from the FEN piece field,
read the castling rights and en-passant square, and rotate the state when
black is to move.  Returns (position, castling, opponent_castling,
en_passant, king_passant, color). -/
def load_fen (fen : String) : Board × List Bool × List Bool × Int × Int × Char :=
  let fields := splitOnChar ' ' fen.toList
  let rows := splitOnChar '/' (fields.getD 0 [])
  let board0 : Board := List.replicate 120 ' '
  let board1 :=
    (List.range 8).foldl
      (fun (b : Board) row =>
        (load_fen_row (rows.getD row []) b (21 + 10 * row)).1)
      board0
  let position :=
    [9, 19, 29, 39, 49, 59, 69, 79, 89, 99, 109, 119].foldl
      (fun (b : Board) i => b.set i '\n') board1
  let castling_rights := fields.getD 2 []
  let castling := [castling_rights.contains 'Q', castling_rights.contains 'K']
  let opponent_castling := [castling_rights.contains 'q', castling_rights.contains 'k']
  let en_passant :=
    if fields.getD 3 [] != ['-'] then parse_coordinates (fields.getD 3 []) else 0
  let king_passant : Int := 0
  let color := (fields.getD 1 []).getD 0 ' '
  if color == 'b' then
    let st := rotate_position position castling opponent_castling en_passant king_passant
    (st.1, st.2.1, st.2.2.1, st.2.2.2.1, st.2.2.2.2, color)
  else (position, castling, opponent_castling, en_passant, king_passant, color)

/-- A transposition-table entry `(best_move, depth, score)`. -/
structure TTEntry where
  move : Move
  depth : Int
  score : Int
deriving DecidableEq, Repr

/-- The search globals that are only read inside a `nega_max` call tree:
`max_depth` (set by the iterative-deepening loop) and the wall clock,
modelled as an oracle telling whether the n-th `time.time()` poll finds
the time limit exceeded. -/
structure SearchCfg where
  maxDepth : Int
  ticks : Nat → Bool

/-- The search globals that the call tree mutates: the transposition
table (an association list acting as the Python dict, newest binding
first), the node counter, the number of clock polls made so far, and the
`timeout` flag. -/
structure SearchState where
  tt : List (Nat × TTEntry)
  nodes : Nat
  checks : Nat
  timeout : Bool

/-- Read the clock once: consume one tick of the oracle. -/
def pollClock (cfg : SearchCfg) (st : SearchState) : Bool × SearchState :=
  (cfg.ticks st.checks, { st with checks := st.checks + 1 })


/-- The `for move in move_list` capture loop of `quiesce`; the recursive
call into `quiesce` at the smaller fuel is passed as the `recurse`
argument so that the recursion stays structural. -/
def quiesce_loop
    (recurse : Int → Int → Board → List Bool → List Bool → Int → Int → SearchState →
      Int × SearchState)
    (beta : Int) (position : Board) (castling opponent_castling : List Bool)
    (en_passant king_passant stand_pat : Int) :
    List Move → Int → SearchState → Int × SearchState
  | [], alpha, st => (alpha, st)
  | move :: rest, alpha, st =>
    if ¬ pyIsLower move.captured then
      quiesce_loop recurse beta position castling opponent_castling en_passant
        king_passant stand_pat rest alpha st
    else
      let np := make_move move position castling opponent_castling en_passant king_passant
      let np := rotate_position np.1 np.2.1 np.2.2.1 np.2.2.2.1 np.2.2.2.2
      if king_in_check np.1 castling np.2.2.2.2 then
        quiesce_loop recurse beta position castling opponent_castling en_passant
          king_passant stand_pat rest alpha st
      else if stand_pat + ENDGAME_PIECE_VALUES (pyUpper move.captured) +
          (if pyIsUpper move.promo then ENDGAME_PIECE_VALUES move.promo else 0) + 200 <
          alpha then
        quiesce_loop recurse beta position castling opponent_castling en_passant
          king_passant stand_pat rest alpha st
      else
        let r := recurse (-beta) (-alpha) np.1 np.2.1 np.2.2.1 np.2.2.2.1 np.2.2.2.2 st
        let score := -r.1
        let st := r.2
        if st.timeout then (0, st)
        else if score ≥ beta then (beta, st)
        else
          quiesce_loop recurse beta position castling opponent_castling en_passant
            king_passant stand_pat rest (if score > alpha then score else alpha) st

/-- `quiesce(alpha, beta, position, ...)`, transliterated with explicit
state and a fuel argument bounding the recursion depth (the Python
recursion is bounded by the number of capturable pieces; every claim
supplies enough fuel). -/
def quiesce (cfg : SearchCfg) : Nat → Int → Int → Board → List Bool → List Bool →
    Int → Int → SearchState → Int × SearchState
  | 0, _, _, _, _, _, _, _, st => (0, st)
  | fuel + 1, alpha, beta, position, castling, opponent_castling, en_passant,
      king_passant, st =>
    let t := pollClock cfg st
    if t.1 then (0, { t.2 with timeout := true })
    else
      let st := { t.2 with nodes := t.2.nodes + 1 }
      let stand_pat := evaluate_position position
      if stand_pat ≥ beta then (stand_pat, st)
      else
        let alpha := if alpha < stand_pat then stand_pat else alpha
        quiesce_loop (quiesce cfg fuel) beta position castling opponent_castling
          en_passant king_passant stand_pat
          (generate_moves position castling en_passant) alpha st

/-- The PV-first reordering inside `nega_max`: move the transposition
move, if present, to the front of the list. -/
def pv_reorder (move_list : List Move) (tt_move : Move) : List Move :=
  if move_list.contains tt_move then tt_move :: move_list.erase tt_move else move_list

/-- The outcome of the `for move in move_list` loop of `nega_max`: either
an early `return` (timeout or beta cutoff) or falling through with the
final alpha, best move, and whether any legal move was tried. -/
inductive LoopOut where
  | early (score : Int) (move : Move) (st : SearchState)
  | fell (alpha : Int) (best : Move) (anyLegal : Bool) (st : SearchState)

/-- The `for move in move_list` loop of `nega_max`; the recursive call
into `nega_max` at the smaller fuel is passed as the `recurse` argument
so that the recursion stays structural. -/
def nega_max_loop
    (recurse : Int → Int → Int → Board → List Bool → List Bool → Int → Int → Char →
      SearchState → (Int × Move) × SearchState)
    (depth beta : Int) (position : Board) (castling opponent_castling : List Bool)
    (en_passant king_passant : Int) (color : Char) :
    List Move → Int → Move → Bool → SearchState → LoopOut
  | [], alpha, best, anyLegal, st => .fell alpha best anyLegal st
  | move :: rest, alpha, best, anyLegal, st =>
    let np := make_move move position castling opponent_castling en_passant king_passant
    let np := rotate_position np.1 np.2.1 np.2.2.1 np.2.2.2.1 np.2.2.2.2
    if king_in_check np.1 castling np.2.2.2.2 then
      nega_max_loop recurse depth beta position castling opponent_castling en_passant
        king_passant color rest alpha best anyLegal st
    else
      let r := recurse (depth - 1) (-beta) (-alpha) np.1 np.2.1 np.2.2.1 np.2.2.2.1
        np.2.2.2.2 (if color == 'b' then 'w' else 'b') st
      let score := -r.1.1
      let st := r.2
      if st.timeout then .early 0 nullMove st
      else if score ≥ beta then .early beta best st
      else if score > alpha then
        nega_max_loop recurse depth beta position castling opponent_castling en_passant
          king_passant color rest score move true st
      else
        nega_max_loop recurse depth beta position castling opponent_castling en_passant
          king_passant color rest alpha best true st

/-- `nega_max(depth, alpha, beta, position, ...)`, transliterated with
explicit state and fuel. -/
def nega_max (cfg : SearchCfg) : Nat → Int → Int → Int → Board → List Bool →
    List Bool → Int → Int → Char → SearchState → (Int × Move) × SearchState
  | 0, _, _, _, _, _, _, _, _, _, st => ((0, nullMove), st)
  | fuel + 1, depth, alpha, beta, position, castling, opponent_castling, en_passant,
      king_passant, color, st =>
    let t := pollClock cfg st
    if t.1 then ((0, nullMove), { t.2 with timeout := true })
    else
      let st := t.2
      if depth == 0 then
        let r := quiesce cfg fuel alpha beta position castling opponent_castling
          en_passant king_passant st
        ((r.1, nullMove), r.2)
      else
        let key := zobrist_hash position castling opponent_castling en_passant
          king_passant color
        let table_info := (st.tt.lookup key).getD ⟨nullMove, -1, 0⟩
        if table_info.depth ≥ depth || table_info.score ≥ CHECKMATE_LOWER then
          ((table_info.score, table_info.move), st)
        else
          let st := { st with nodes := st.nodes + 1 }
          let move_list := generate_moves position castling en_passant
          let move_list := pv_reorder move_list table_info.move
          match nega_max_loop (nega_max cfg fuel) depth beta position castling
            opponent_castling en_passant king_passant color move_list alpha nullMove
            false st with
          | .early score move st => ((score, move), st)
          | .fell alpha best anyLegal st =>
            if ¬ anyLegal then
              let np := rotate_position position castling opponent_castling en_passant
                king_passant
              if king_in_check np.1 castling 0 then
                ((-CHECKMATE_LOWER + cfg.maxDepth - depth, nullMove), st)
              else ((0, nullMove), st)
            else
              let st :=
                if best != nullMove then
                  { st with tt := (key, ⟨best, depth, alpha⟩) :: st.tt }
                else st
              ((alpha, best), st)

/-- The validity check guarding the `go` handler (`main`, line 1190): the
command is ignored (Python `continue`) exactly when this is false.  The
check is purely structural: board length, castling list lengths, passant
squares in 0..119, and a recognized color. -/
def go_position_valid (position : Board) (castling opponent_castling : List Bool)
    (en_passant king_passant : Int) (color : Char) : Bool :=
  position.length == 120 && castling.length == 2 && opponent_castling.length == 2 &&
    (0 ≤ en_passant && en_passant ≤ 119) && (0 ≤ king_passant && king_passant ≤ 119) &&
    (color == 'w' || color == 'b')

/-- Well-formedness of one board cell, following the data-model invariant:
column 9 of each row is the newline, the other sentinel cells (column 0,
rows 0-1 and 10-11) are spaces, and every inner cell is a piece character
or the empty-square marker. -/
def boardOkAt (p : Board) (i : Nat) : Bool :=
  if i % 10 == 9 then getN p i == '\n'
  else if i % 10 == 0 || i < 20 || 100 ≤ i then getN p i == ' '
  else ("PNBRQKpnbrqk.".toList).contains (getN p i)

/-- Well-formedness of a board: 120 cells, each satisfying `boardOkAt`.
Every position built by `load_fen` or reached from the initial position
through generated moves satisfies this invariant. -/
def wellformedb (p : Board) : Bool :=
  p.length == 120 && (List.range 120).all (boardOkAt p)

/-- Propositional form of board well-formedness. -/
def Wellformed (p : Board) : Prop := wellformedb p = true

instance (p : Board) : Decidable (Wellformed p) := by
  unfold Wellformed
  infer_instance

/-- A board holding only the black king on e8 (cell 25). -/
def lone_black_king : Board :=
  ("         \n" ++
   "         \n" ++
   " ....k...\n" ++
   " ........\n" ++
   " ........\n" ++
   " ........\n" ++
   " ........\n" ++
   " ........\n" ++
   " ........\n" ++
   " ........\n" ++
   "         \n" ++
   "         \n").toList

/-- The zobrist key of `lone_black_king` with no rights, white to move. -/
def lone_black_king_key : Nat :=
  zobrist_hash lone_black_king [false, false] [false, false] 0 0 'w'

/-- A transposition entry carrying a mate-against score at depth 0. -/
def c4_entry : TTEntry := ⟨⟨25, 35, '.', ' '⟩, 0, -CHECKMATE_LOWER⟩

set_option maxRecDepth 100000 in
/-- C1: for the standard starting position, whether installed as
`startpos` or parsed from its FEN, `zobrist_hash` returns exactly
0x463B96181691FC9C, the canonical PolyGlot hash of that position. -/
theorem c1_startpos_polyglot_hash :
    zobrist_hash INITIAL_POSITION INITIAL_CASTLING INITIAL_OPPONENT_CASTLING
      INITIAL_EN_PASSANT INITIAL_KING_PASSANT INITIAL_COLOR = 0x463B96181691FC9C ∧
    load_fen "rnbqkbnr/pppppppp/8/8/8/8/PPPPPPPP/RNBQKBNR w KQkq - 0 1" =
      (INITIAL_POSITION, INITIAL_CASTLING, INITIAL_OPPONENT_CASTLING,
        INITIAL_EN_PASSANT, INITIAL_KING_PASSANT, INITIAL_COLOR) := by
  constructor
  · decide
  · decide

set_option maxRecDepth 100000 in
/-- C3 (code bug): play e2e4 from the initial position (the double push
stores en-passant square 75, rotated to 44 for the reply), then make the
non-pawn reply g8f6 (a knight move, from square 92 to 73 in the rotated
frame).  `make_move` returns the stale en-passant square 44 unchanged
instead of 0: a non-pawn move does not clear the en-passant state. -/
theorem c3_stale_en_passant_after_knight_move :
    (let afterE4 := make_move ⟨85, 65, '.', ' '⟩ INITIAL_POSITION INITIAL_CASTLING
      INITIAL_OPPONENT_CASTLING INITIAL_EN_PASSANT INITIAL_KING_PASSANT
    let rotated := rotate_position afterE4.1 afterE4.2.1 afterE4.2.2.1
      afterE4.2.2.2.1 afterE4.2.2.2.2
    rotated.2.2.2.1 = 44 ∧
      cellAt rotated.1 92 = 'N' ∧
      (make_move ⟨92, 73, '.', ' '⟩ rotated.1 rotated.2.1 rotated.2.2.1
        rotated.2.2.2.1 rotated.2.2.2.2).2.2.2.1 = 44) := by
  refine ⟨by decide, by decide, by decide⟩

set_option maxRecDepth 200000 in
/-- C4 counterexample: the transposition table holds the entry for this
exact position's hash with score −CHECKMATE_LOWER (a mate against the
mover) at stored depth 0 < current depth 1; the claim says the entry is
returned immediately, but `nega_max` ignores it (the code compares the
signed score against CHECKMATE_LOWER) and searches, returning the
freshly computed mate score instead of the entry. -/
theorem c4_counterexample_negative_mate_entry_not_returned :
    c4_entry.score = -CHECKMATE_LOWER ∧ c4_entry.depth = 0 ∧
    (nega_max ⟨3, fun _ => false⟩ 10 1 (-CHECKMATE_UPPER) CHECKMATE_UPPER
        lone_black_king [false, false] [false, false] 0 0 'w'
        ⟨[(lone_black_king_key, c4_entry)], 0, 0, false⟩).1 =
      (-CHECKMATE_LOWER + 3 - 1, nullMove) ∧
    ((-CHECKMATE_LOWER + 3 - 1 : Int), nullMove) ≠ (c4_entry.score, c4_entry.move) := by
  refine ⟨by decide, by decide, by decide, by decide⟩

/-- C4 amended: when the transposition table holds an entry for the
current position's hash and the entry's stored depth is at least the
current depth, or the entry's (signed) score is at least
CHECKMATE_LOWER, `nega_max` returns the entry's score and move
immediately.  Entries with score at most −CHECKMATE_LOWER get no special
treatment: the code compares the signed score only. -/
theorem c4_tt_entry_returned_immediately (cfg : SearchCfg) (fuel : Nat)
    (depth alpha beta : Int) (position : Board) (castling opponent_castling : List Bool)
    (en_passant king_passant : Int) (color : Char) (st : SearchState) (e : TTEntry)
    (htick : cfg.ticks st.checks = false) (hdepth : 1 ≤ depth)
    (hlookup : st.tt.lookup (zobrist_hash position castling opponent_castling
      en_passant king_passant color) = some e)
    (hcond : depth ≤ e.depth ∨ CHECKMATE_LOWER ≤ e.score) :
    (nega_max cfg (fuel + 1) depth alpha beta position castling opponent_castling
      en_passant king_passant color st).1 = (e.score, e.move) := by
  have hd0 : (depth == 0) = false := beq_eq_false_iff_ne.mpr (by omega)
  have hc : (decide (e.depth ≥ depth) || decide (e.score ≥ CHECKMATE_LOWER)) = true := by
    rcases hcond with h | h
    · simp [decide_eq_true h]
    · simp [decide_eq_true h]
  rw [nega_max]
  simp only [pollClock, htick, Bool.false_eq_true, if_false, hd0, hlookup,
    Option.getD_some, hc, if_true]

set_option maxRecDepth 200000 in
/-- Closed instance of `c4_tt_entry_returned_immediately`: a stored entry
of depth 2 and score 77 is returned unchanged by a depth-2 call. -/
theorem c4_tt_entry_returned_immediately_witness :
    (nega_max ⟨3, fun _ => false⟩ 10 2 (-CHECKMATE_UPPER) CHECKMATE_UPPER
        lone_black_king [false, false] [false, false] 0 0 'w'
        ⟨[(lone_black_king_key, ⟨⟨25, 35, '.', ' '⟩, 2, 77⟩)], 0, 0, false⟩).1 =
      (77, ⟨25, 35, '.', ' '⟩) :=
  c4_tt_entry_returned_immediately ⟨3, fun _ => false⟩ 9 2 (-CHECKMATE_UPPER)
    CHECKMATE_UPPER lone_black_king [false, false] [false, false] 0 0 'w'
    ⟨[(lone_black_king_key, ⟨⟨25, 35, '.', ' '⟩, 2, 77⟩)], 0, 0, false⟩
    ⟨⟨25, 35, '.', ' '⟩, 2, 77⟩ rfl (by decide) (by decide) (Or.inl (by decide))

set_option maxRecDepth 100000 in
/-- C9 counterexample: parsing the kingless FEN `8/8/8/8/8/8/8/8 w - - 0 1`
yields a state that passes the `go` validity check, so `go` is not ignored
on a position with no kings, contrary to the claim. -/
theorem c9_counterexample_kingless_go_not_ignored :
    (let st := load_fen "8/8/8/8/8/8/8/8 w - - 0 1"
    go_position_valid st.1 st.2.1 st.2.2.1 st.2.2.2.1 st.2.2.2.2.1 st.2.2.2.2.2 = true ∧
      st.1.count 'K' = 0 ∧ st.1.count 'k' = 0) := by
  refine ⟨by decide, by decide, by decide⟩

set_option maxRecDepth 200000 in
/-- C9 amended: the `go` guard is purely structural (board length 120,
castling lists of length 2, passant squares within 0..119, color w or b).
A kingless position passes it and is searched: `nega_max` at depth 1
returns the mate score with the null best move, which `main` prints as
`bestmove (none)`.  What the guard does reject is the uninitialized
startup state (empty board and castling lists, passant squares 120). -/
theorem c9_go_guard_structural_only :
    (let st := load_fen "8/8/8/8/8/8/8/8 w - - 0 1"
    go_position_valid st.1 st.2.1 st.2.2.1 st.2.2.2.1 st.2.2.2.2.1 st.2.2.2.2.2 = true ∧
      st.1.count 'K' = 0 ∧ st.1.count 'k' = 0 ∧
      (nega_max ⟨5, fun _ => false⟩ 10 1 (-CHECKMATE_UPPER) CHECKMATE_UPPER st.1
          st.2.1 st.2.2.1 st.2.2.2.1 st.2.2.2.2.1 st.2.2.2.2.2 ⟨[], 0, 0, false⟩).1 =
        (-(CHECKMATE_LOWER - (5 - 1)), nullMove)) ∧
    go_position_valid [] [] [] 120 120 ' ' = false := by
  refine ⟨⟨by decide, by decide, by decide, by decide⟩, by decide⟩

theorem wf_length {p : Board} (hw : Wellformed p) : p.length = 120 := by
  unfold Wellformed wellformedb at hw
  simp only [Bool.and_eq_true, beq_iff_eq] at hw
  exact hw.1

theorem wf_cell {p : Board} (hw : Wellformed p) {i : Nat} (h : i < 120) :
    boardOkAt p i = true := by
  unfold Wellformed wellformedb at hw
  simp only [Bool.and_eq_true, List.all_eq_true, List.mem_range] at hw
  exact hw.2 i h

theorem wf_cases {p : Board} (hw : Wellformed p) {i : Nat} (h : i < 120) :
    (i % 10 = 9 ∧ getN p i = '\n') ∨
    ((i % 10 = 0 ∨ i < 20 ∨ 100 ≤ i) ∧ i % 10 ≠ 9 ∧ getN p i = ' ') ∨
    (1 ≤ i % 10 ∧ i % 10 ≤ 8 ∧ 2 ≤ i / 10 ∧ i / 10 ≤ 9 ∧
      getN p i ∈ ("PNBRQKpnbrqk.".toList)) := by
  have hok := wf_cell hw h
  unfold boardOkAt at hok
  split at hok
  · rename_i hc
    simp only [beq_iff_eq] at hc hok
    exact Or.inl ⟨hc, hok⟩
  · rename_i hc
    simp only [beq_iff_eq] at hc
    split at hok
    · rename_i hc2
      simp only [Bool.or_eq_true, beq_iff_eq, decide_eq_true_eq] at hc2
      simp only [beq_iff_eq] at hok
      exact Or.inr (Or.inl ⟨by omega, hc, hok⟩)
    · rename_i hc2
      simp only [Bool.or_eq_true, beq_iff_eq, decide_eq_true_eq] at hc2
      push_neg at hc2
      refine Or.inr (Or.inr ⟨by omega, by omega, by omega, by omega, ?_⟩)
      exact List.mem_of_elem_eq_true hok

theorem wf_upper_inner {p : Board} (hw : Wellformed p) {i : Nat} (h : i < 120)
    (hu : pyIsUpper (getN p i) = true) :
    1 ≤ i % 10 ∧ i % 10 ≤ 8 ∧ 2 ≤ i / 10 ∧ i / 10 ≤ 9 ∧
      getN p i ∈ (['P', 'N', 'B', 'R', 'Q', 'K'] : List Char) := by
  rcases wf_cases hw h with ⟨-, hc⟩ | ⟨-, -, hc⟩ | ⟨h1, h2, h3, h4, hc⟩
  · rw [hc] at hu
    exact absurd hu (by decide)
  · rw [hc] at hu
    exact absurd hu (by decide)
  · refine ⟨h1, h2, h3, h4, ?_⟩
    have hx := by simpa using hc
    rcases hx with hx | hx | hx | hx | hx | hx | hx | hx | hx | hx | hx | hx | hx <;>
      rw [hx] at hu ⊢ <;> first | decide | exact absurd hu (by decide)

theorem wf_lower_inner {p : Board} (hw : Wellformed p) {i : Nat} (h : i < 120)
    (hu : pyIsLower (getN p i) = true) :
    1 ≤ i % 10 ∧ i % 10 ≤ 8 ∧ 2 ≤ i / 10 ∧ i / 10 ≤ 9 ∧
      getN p i ∈ (['p', 'n', 'b', 'r', 'q', 'k'] : List Char) := by
  rcases wf_cases hw h with ⟨-, hc⟩ | ⟨-, -, hc⟩ | ⟨h1, h2, h3, h4, hc⟩
  · rw [hc] at hu
    exact absurd hu (by decide)
  · rw [hc] at hu
    exact absurd hu (by decide)
  · refine ⟨h1, h2, h3, h4, ?_⟩
    have hx := by simpa using hc
    rcases hx with hx | hx | hx | hx | hx | hx | hx | hx | hx | hx | hx | hx | hx <;>
      rw [hx] at hu ⊢ <;> first | decide | exact absurd hu (by decide)

theorem pyFind_eq_zero_or_found (p : Board) (c : Char) :
    pyFind p c = 0 ∨
    (∃ j : Nat, j < p.length ∧ getN p j = c ∧ pyFind p c = (j : Int)) := by
  unfold pyFind
  cases hf : List.findIdx? (fun x => x == c) p with
  | none => exact Or.inl rfl
  | some i =>
    obtain ⟨hi, hpi, -⟩ := List.findIdx?_eq_some_iff_getElem.mp hf
    refine Or.inr ⟨i, hi, ?_, rfl⟩
    simp only [beq_iff_eq] at hpi
    simp [getN, List.getD_eq_getElem _ _ hi, List.getElem?_eq_getElem hi, hpi]

theorem manhattan_pos_of_ne {a b : Nat} (hne : a ≠ b) :
    0 < manhattan_distance (a : Int) (b : Int) := by
  unfold manhattan_distance
  omega

theorem manhattan_pos_of_inner {a : Nat} (h2 : 2 ≤ a / 10) :
    0 < manhattan_distance (a : Int) 0 := by
  unfold manhattan_distance
  omega

/-- C10: after the `isready` padding the piece-square tables have one
entry per board cell (length 120) for every piece, and on every
well-formed board each tropism divisor `manhattan_distance(square,
king_square)` inside `evaluate_position` is strictly positive — an
uppercase piece is never on the (defaulted-to-0) opponent-king square and
a lowercase piece never on the own-king square — and the mirrored table
index of every lowercase piece stays below 120, so the evaluation
performs no division by zero and no out-of-range table access, even when
one or both kings are absent. -/
theorem c10_evaluation_safe (p : Board) (hw : Wellformed p) :
    (∀ c ∈ (['P', 'N', 'B', 'R', 'Q', 'K'] : List Char),
      (MPST c).length = 120 ∧ (EPST c).length = 120) ∧
    (∀ i : Nat, i < 120 →
      (pyIsUpper (getN p i) = true →
        0 < manhattan_distance (i : Int) (pyFind p 'k')) ∧
      (pyIsLower (getN p i) = true →
        0 < manhattan_distance (i : Int) (pyFind p 'K') ∧ vmirror i < 120)) := by
  constructor
  · decide
  intro i hi
  constructor
  · intro hu
    obtain ⟨h1, h2, h3, h4, hm⟩ := wf_upper_inner hw hi hu
    rcases pyFind_eq_zero_or_found p 'k' with h0 | ⟨j, hj, hcj, hfind⟩
    · rw [h0]
      exact manhattan_pos_of_inner h3
    · rw [hfind]
      refine manhattan_pos_of_ne ?_
      intro hij
      rw [hij, hcj] at hm
      simp at hm
  · intro hl
    obtain ⟨h1, h2, h3, h4, hm⟩ := wf_lower_inner hw hi hl
    refine ⟨?_, by unfold vmirror; omega⟩
    rcases pyFind_eq_zero_or_found p 'K' with h0 | ⟨j, hj, hcj, hfind⟩
    · rw [h0]
      exact manhattan_pos_of_inner h3
    · rw [hfind]
      refine manhattan_pos_of_ne ?_
      intro hij
      rw [hij, hcj] at hm
      simp at hm

/-- Closed instance of `c10_evaluation_safe` at the initial position. -/
theorem c10_evaluation_safe_witness :
    Wellformed INITIAL_POSITION ∧
    ((∀ c ∈ (['P', 'N', 'B', 'R', 'Q', 'K'] : List Char),
      (MPST c).length = 120 ∧ (EPST c).length = 120) ∧
    (∀ i : Nat, i < 120 →
      (pyIsUpper (getN INITIAL_POSITION i) = true →
        0 < manhattan_distance (i : Int) (pyFind INITIAL_POSITION 'k')) ∧
      (pyIsLower (getN INITIAL_POSITION i) = true →
        0 < manhattan_distance (i : Int) (pyFind INITIAL_POSITION 'K') ∧
          vmirror i < 120))) :=
  ⟨by decide, c10_evaluation_safe INITIAL_POSITION (by decide)⟩

theorem getN_set_self {p : Board} {i : Nat} (h : i < p.length) (c : Char) :
    getN (p.set i c) i = c := by
  simp [getN, List.getD_eq_getElem?_getD, List.getElem?_set_self h]

theorem getN_set_ne (p : Board) {i j : Nat} (h : i ≠ j) (c : Char) :
    getN (p.set i c) j = getN p j := by
  simp [getN, List.getD_eq_getElem?_getD, List.getElem?_set_ne h]

theorem rotStep_length (p : Board) (i : Nat) : (rotStep p i).length = p.length := by
  unfold rotStep
  split
  · rfl
  · simp

theorem rotFold_length (p : Board) (n : Nat) :
    ((List.range n).foldl rotStep p).length = p.length := by
  induction n with
  | zero => rfl
  | succ n ih =>
    rw [List.range_succ, List.foldl_append, List.foldl_cons, List.foldl_nil,
      rotStep_length, ih]

/-- The value of cell `j` after the first `n` iterations of the
`rotate_position` swap loop (a proof-only description of the loop state). -/
def rotPartial (p : Board) (n : Nat) (j : Nat) : Char :=
  if j < n then (if pyIsSpace (getN p j) then getN p j else swapcase (getN p (119 - j)))
  else if 120 - n ≤ j ∧ j < 120 then
    (if pyIsSpace (getN p (119 - j)) then getN p j else swapcase (getN p (119 - j)))
  else getN p j

theorem rotPartial_succ_ne (p : Board) {n j : Nat} (hj1 : j ≠ n) (hj2 : j ≠ 119 - n)
    (hn : n ≤ 59) : rotPartial p (n + 1) j = rotPartial p n j := by
  unfold rotPartial
  split_ifs <;> first | rfl | omega

theorem rotFold_getN (p : Board) (hlen : p.length = 120) :
    ∀ n, n ≤ 60 → ∀ j, getN ((List.range n).foldl rotStep p) j = rotPartial p n j := by
  intro n
  induction n with
  | zero =>
    intro _ j
    unfold rotPartial
    rw [if_neg (by omega), if_neg (by omega)]
    rfl
  | succ n ih =>
    intro hn j
    rw [List.range_succ, List.foldl_append, List.foldl_cons, List.foldl_nil]
    have hq := ih (by omega)
    have hqn : getN ((List.range n).foldl rotStep p) n = getN p n := by
      rw [hq n]
      unfold rotPartial
      rw [if_neg (by omega), if_neg (by omega)]
    have hqm : getN ((List.range n).foldl rotStep p) (119 - n) = getN p (119 - n) := by
      rw [hq (119 - n)]
      unfold rotPartial
      rw [if_neg (by omega), if_neg (by omega)]
    have hqlen : ((List.range n).foldl rotStep p).length = 120 := by
      rw [rotFold_length, hlen]
    set q := (List.range n).foldl rotStep p with hqdef
    have hstep : rotStep q n =
        if pyIsSpace (getN p n) = true then q
        else (q.set (119 - n) (swapcase (getN p n))).set n
          (swapcase (getN p (119 - n))) := by
      simp only [rotStep, hqn, hqm]
    rw [hstep]
    by_cases hsp : pyIsSpace (getN p n) = true
    · rw [if_pos hsp, hq j]
      by_cases hj1 : j = n
      · subst hj1
        unfold rotPartial
        rw [if_neg (by omega), if_neg (by omega), if_pos (by omega), if_pos hsp]
      by_cases hj2 : j = 119 - n
      · subst hj2
        unfold rotPartial
        rw [if_neg (by omega), if_neg (by omega), if_neg (by omega),
          if_pos (by omega)]
        have : 119 - (119 - n) = n := by omega
        rw [this, if_pos hsp]
      · rw [rotPartial_succ_ne p hj1 hj2 (by omega)]
    · by_cases hj1 : j = n
      · subst hj1
        rw [if_neg hsp, getN_set_self (by simp [hqlen]; omega) _]
        unfold rotPartial
        rw [if_pos (by omega), if_neg hsp]
      by_cases hj2 : j = 119 - n
      · subst hj2
        rw [if_neg hsp, getN_set_ne _ (by omega) _,
          getN_set_self (by rw [hqdef, rotFold_length, hlen]; omega) _]
        unfold rotPartial
        rw [if_neg (by omega), if_pos (by omega)]
        have h119 : 119 - (119 - n) = n := by omega
        rw [h119, if_neg hsp]
      · rw [if_neg hsp, getN_set_ne _ (by omega) _, getN_set_ne _ (by omega) _, hq j,
          rotPartial_succ_ne p hj1 hj2 (by omega)]

theorem rotateBoard_getN (p : Board) (hlen : p.length = 120) (j : Nat) (hj : j < 120) :
    getN (rotateBoard p) j =
      if pyIsSpace (getN p (if j < 60 then j else 119 - j)) then getN p j
      else swapcase (getN p (119 - j)) := by
  unfold rotateBoard
  rw [rotFold_getN p hlen 60 (by omega) j]
  unfold rotPartial
  by_cases hj1 : j < 60
  · rw [if_pos hj1, if_pos hj1]
  · rw [if_neg hj1, if_pos (by omega), if_neg hj1]

theorem wf_space_iff {p : Board} (hw : Wellformed p) {j : Nat} (hj : j < 120) :
    pyIsSpace (getN p j) = true ↔ (j % 10 = 0 ∨ j % 10 = 9 ∨ j < 20 ∨ 100 ≤ j) := by
  rcases wf_cases hw hj with ⟨h1, h2⟩ | ⟨h1, h2, h3⟩ | ⟨h1, h2, h3, h4, h5⟩
  · rw [h2]
    simp only [show pyIsSpace '\n' = true from rfl, true_iff]
    omega
  · rw [h3]
    simp only [show pyIsSpace ' ' = true from rfl, true_iff]
    omega
  · constructor
    · intro hs
      exfalso
      have hx := by simpa using h5
      rcases hx with hx | hx | hx | hx | hx | hx | hx | hx | hx | hx | hx | hx | hx <;>
        rw [hx] at hs <;> exact absurd hs (by decide)
    · intro hc
      omega

theorem wf_char_facts {p : Board} (hw : Wellformed p) {j : Nat} (hj : j < 120)
    (hns : pyIsSpace (getN p j) = false) :
    swapcase (swapcase (getN p j)) = getN p j ∧
      pyIsSpace (swapcase (getN p j)) = false := by
  rcases wf_cases hw hj with ⟨h1, h2⟩ | ⟨h1, h2, h3⟩ | ⟨h1, h2, h3, h4, h5⟩
  · rw [h2] at hns
    exact absurd hns (by decide)
  · rw [h3] at hns
    exact absurd hns (by decide)
  · have hx := by simpa using h5
    rcases hx with hx | hx | hx | hx | hx | hx | hx | hx | hx | hx | hx | hx | hx <;>
      rw [hx] <;> exact ⟨by decide, by decide⟩

theorem rotateBoard_getN_wf {p : Board} (hw : Wellformed p) {j : Nat} (hj : j < 120) :
    getN (rotateBoard p) j =
      if pyIsSpace (getN p j) = true then getN p j
      else swapcase (getN p (119 - j)) := by
  rw [rotateBoard_getN p (wf_length hw) j hj]
  by_cases hj60 : j < 60
  · rw [if_pos hj60]
  · rw [if_neg hj60]
    have h1 := wf_space_iff hw hj
    have h2 := wf_space_iff hw (j := 119 - j) (by omega)
    by_cases hs : pyIsSpace (getN p j) = true
    · rw [if_pos (h2.mpr (by have := h1.mp hs; omega)), if_pos hs]
    · rw [if_neg ?_, if_neg hs]
      intro hcon
      exact hs (h1.mpr (by have := h2.mp hcon; omega))

theorem rotateBoard_space (p : Board) (hw : Wellformed p) {k : Nat} (hk : k < 120) :
    pyIsSpace (getN (rotateBoard p) k) = pyIsSpace (getN p k) := by
  rw [rotateBoard_getN_wf hw hk]
  by_cases hs : pyIsSpace (getN p k) = true
  · rw [if_pos hs]
  · rw [if_neg hs]
    have hmir : pyIsSpace (getN p (119 - k)) = false := by
      rw [Bool.eq_false_iff]
      intro hcon
      exact hs ((wf_space_iff hw hk).mpr
        (by have := (wf_space_iff hw (j := 119 - k) (by omega)).mp hcon; omega))
    rw [(wf_char_facts hw (by omega : 119 - k < 120) hmir).2, Bool.eq_false_iff.mpr hs]

theorem getN_eq_getElem {p : Board} {j : Nat} (h : j < p.length) : getN p j = p[j] := by
  simp [getN, List.getD_eq_getElem?_getD, List.getElem?_eq_getElem h]

theorem rotateBoard_length (p : Board) : (rotateBoard p).length = p.length :=
  rotFold_length p 60

theorem rotateBoard_involution {p : Board} (hw : Wellformed p) :
    rotateBoard (rotateBoard p) = p := by
  have hlen : p.length = 120 := wf_length hw
  have hlen1 : (rotateBoard p).length = 120 := by
    rw [rotateBoard_length, hlen]
  have hlen2 : (rotateBoard (rotateBoard p)).length = 120 := by
    rw [rotateBoard_length, rotateBoard_length, hlen]
  apply List.ext_getElem (by rw [hlen2, hlen])
  intro j hj1 hj2
  have hj : j < 120 := by omega
  rw [← getN_eq_getElem hj1, ← getN_eq_getElem hj2]
  rw [rotateBoard_getN (rotateBoard p) hlen1 j hj]
  have hguard : pyIsSpace (getN (rotateBoard p) (if j < 60 then j else 119 - j)) =
      pyIsSpace (getN p j) := by
    by_cases hj60 : j < 60
    · rw [if_pos hj60, rotateBoard_space p hw hj]
    · rw [if_neg hj60, rotateBoard_space p hw (by omega : 119 - j < 120)]
      by_cases hs : pyIsSpace (getN p j) = true
      · rw [hs, (wf_space_iff hw (j := 119 - j) (by omega)).mpr
          (by have := (wf_space_iff hw hj).mp hs; omega)]
      · rw [Bool.eq_false_iff.mpr hs, Bool.eq_false_iff]
        intro hcon
        exact hs ((wf_space_iff hw hj).mpr
          (by have := (wf_space_iff hw (j := 119 - j) (by omega)).mp hcon; omega))
  rw [hguard]
  by_cases hs : pyIsSpace (getN p j) = true
  · rw [if_pos hs, rotateBoard_getN_wf hw hj, if_pos hs]
  · rw [if_neg hs, rotateBoard_getN_wf hw (by omega : 119 - j < 120)]
    have hmir : pyIsSpace (getN p (119 - j)) = false := by
      rw [Bool.eq_false_iff]
      intro hcon
      exact hs ((wf_space_iff hw hj).mpr
        (by have := (wf_space_iff hw (j := 119 - j) (by omega)).mp hcon; omega))
    rw [hmir]
    simp only [Bool.false_eq_true, if_false]
    have h119 : 119 - (119 - j) = j := by omega
    rw [h119]
    exact (wf_char_facts hw hj (Bool.eq_false_iff.mpr hs)).1

/-- C5: on any well-formed engine state, applying `rotate_position` twice
returns exactly the original state: the castling pairs swap back, the two
passant squares reflect back through `119 - x`, and the board swap loop is
an involution because the sentinel pattern is symmetric under the
180-degree reflection. -/
theorem c5_rotate_involution (position : Board) (castling opponent_castling : List Bool)
    (en_passant king_passant : Int) (hw : Wellformed position) :
    (let r := rotate_position position castling opponent_castling en_passant king_passant
    rotate_position r.1 r.2.1 r.2.2.1 r.2.2.2.1 r.2.2.2.2) =
      (position, castling, opponent_castling, en_passant, king_passant) := by
  simp only [rotate_position]
  rw [rotateBoard_involution hw]
  have h1 : 119 - (119 - en_passant) = en_passant := by omega
  have h2 : 119 - (119 - king_passant) = king_passant := by omega
  rw [h1, h2]

/-- Closed instance of `c5_rotate_involution` at the initial state. -/
theorem c5_rotate_involution_witness :
    Wellformed INITIAL_POSITION ∧
    (let r := rotate_position INITIAL_POSITION INITIAL_CASTLING
      INITIAL_OPPONENT_CASTLING INITIAL_EN_PASSANT INITIAL_KING_PASSANT
    rotate_position r.1 r.2.1 r.2.2.1 r.2.2.2.1 r.2.2.2.2) =
      (INITIAL_POSITION, INITIAL_CASTLING, INITIAL_OPPONENT_CASTLING,
        INITIAL_EN_PASSANT, INITIAL_KING_PASSANT) :=
  ⟨by decide, c5_rotate_involution _ _ _ _ _ (by decide)⟩

/-- A board with the white king on e1, the black king on e8 and a black
pawn on d4 (cell 64); there is no white pawn anywhere. -/
def c8_board : Board :=
  ("         \n" ++
   "         \n" ++
   " ....k...\n" ++
   " ........\n" ++
   " ........\n" ++
   " ........\n" ++
   " ...p....\n" ++
   " ........\n" ++
   " ........\n" ++
   " ....K...\n" ++
   "         \n" ++
   "         \n").toList

set_option maxRecDepth 100000 in
theorem c8_counterexample_opponent_pawn_hashes_for_white :
    zobrist_hash c8_board [false, false] [false, false] 75 0 'w' ≠
      zobrist_hash c8_board [false, false] [false, false] 0 0 'w' ∧
    c8_board.count 'P' = 0 := by
  refine ⟨by decide, by decide⟩

theorem nat_xor_eq_self_iff (a e : Nat) : a ^^^ e = a ↔ e = 0 := by
  constructor
  · intro h
    have h2 := congrArg (fun x => a ^^^ x) h
    simpa [← Nat.xor_assoc, Nat.xor_self, Nat.xor_comm] using h2
  · intro h
    simp [h]

/-- C8 amended: the zobrist hash decomposes as the hash of the same state
with `en_passant = 0` XORed with the en-passant term computed on the
normalized (white-perspective) state; consequently the hash is unchanged
exactly when that term is zero.  The term itself (`en_passant_hash`) XORs
in the file entry `HASH_VALUES[772 + file]` only when the normalized
square lies in rows 41..48 with a white pawn diagonally south of it — the
friendly-pawn-can-capture test of the claim — or, for squares in rows
71..78 (which arise for genuine en-passant squares only after the
black-to-move rotation, but also for stale squares with white to move),
when a BLACK pawn stands diagonally north of it. -/
theorem c8_en_passant_hash_decomposition (position : Board)
    (castling opponent_castling : List Bool) (en_passant king_passant : Int)
    (color : Char) :
    (let st :=
      if color == 'b' then
        rotate_position position castling opponent_castling en_passant king_passant
      else (position, castling, opponent_castling, en_passant, king_passant)
    zobrist_hash position castling opponent_castling en_passant king_passant color =
      zobrist_hash position castling opponent_castling 0 king_passant color ^^^
        en_passant_hash st.1 st.2.2.2.1 ∧
    (zobrist_hash position castling opponent_castling en_passant king_passant color =
        zobrist_hash position castling opponent_castling 0 king_passant color ↔
      en_passant_hash st.1 st.2.2.2.1 = 0)) := by
  simp only
  by_cases hb : (color == 'b') = true
  · have hdec : zobrist_hash position castling opponent_castling en_passant
        king_passant color =
        zobrist_hash position castling opponent_castling 0 king_passant color ^^^
          en_passant_hash
            (rotate_position position castling opponent_castling en_passant
              king_passant).1
            (rotate_position position castling opponent_castling en_passant
              king_passant).2.2.2.1 := by
      simp only [zobrist_hash, rotate_position, hb, if_true]
      have h119 : en_passant_hash (rotateBoard position) (119 - (0 : Int)) = 0 := by
        unfold en_passant_hash
        norm_num
      rw [h119]
      simp [Nat.xor_assoc, Nat.xor_comm]
    rw [if_pos hb]
    exact ⟨hdec, by rw [hdec]; exact nat_xor_eq_self_iff _ _⟩
  · have hdec : zobrist_hash position castling opponent_castling en_passant
        king_passant color =
        zobrist_hash position castling opponent_castling 0 king_passant color ^^^
          en_passant_hash position en_passant := by
      simp only [zobrist_hash, hb, Bool.false_eq_true, if_false]
      have h0 : en_passant_hash position 0 = 0 := by
        unfold en_passant_hash
        norm_num
      rw [h0]
      simp [Nat.xor_assoc, Nat.xor_comm]
    rw [if_neg hb]
    exact ⟨hdec, by rw [hdec]; exact nat_xor_eq_self_iff _ _⟩

theorem pv_reorder_subset {l : List Move} {t m : Move} (h : m ∈ pv_reorder l t) :
    m ∈ l := by
  unfold pv_reorder at h
  split at h
  · rename_i hc
    rcases List.mem_cons.mp h with rfl | h2
    · exact List.contains_iff_exists_mem_beq.mp hc |>.elim
        (fun x hx => by
          rcases hx with ⟨hx1, hx2⟩
          rw [beq_iff_eq] at hx2
          rwa [hx2])
    · exact List.mem_of_mem_erase h2
  · exact h

theorem nega_max_loop_all_illegal
    (recurse : Int → Int → Int → Board → List Bool → List Bool → Int → Int → Char →
      SearchState → (Int × Move) × SearchState)
    (depth beta : Int) (position : Board) (castling opponent_castling : List Bool)
    (en_passant king_passant : Int) (color : Char) (moves : List Move) :
    ∀ (alpha : Int) (best : Move) (anyLegal : Bool) (st : SearchState),
    (∀ m ∈ moves,
      (let np := make_move m position castling opponent_castling en_passant king_passant
      king_in_check (rotate_position np.1 np.2.1 np.2.2.1 np.2.2.2.1 np.2.2.2.2).1
        castling
        (rotate_position np.1 np.2.1 np.2.2.1 np.2.2.2.1 np.2.2.2.2).2.2.2.2) = true) →
    nega_max_loop recurse depth beta position castling opponent_castling en_passant
      king_passant color moves alpha best anyLegal st =
      .fell alpha best anyLegal st := by
  induction moves with
  | nil =>
    intro alpha best anyLegal st _
    rfl
  | cons m rest ih =>
    intro alpha best anyLegal st h
    rw [nega_max_loop]
    rw [if_pos (h m (List.mem_cons_self m rest))]
    exact ih alpha best anyLegal st fun x hx => h x (List.mem_cons_of_mem m hx)

/-- C7: a `nega_max` call at depth at least 1 whose entry time check does
not trip and whose transposition probe does not fire, all of whose
generated moves are illegal (each leaves the mover's king capturable),
returns −(CHECKMATE_LOWER − (max_depth − depth)) with the null best move
when the mover is in check, and 0 with the null best move otherwise
(stalemate). -/
theorem c7_no_legal_moves_mate_or_stalemate (cfg : SearchCfg) (fuel : Nat)
    (depth alpha beta : Int) (position : Board) (castling opponent_castling : List Bool)
    (en_passant king_passant : Int) (color : Char) (st : SearchState)
    (htick : cfg.ticks st.checks = false) (hdepth : 1 ≤ depth)
    (hprobe :
      ((st.tt.lookup (zobrist_hash position castling opponent_castling en_passant
        king_passant color)).getD ⟨nullMove, -1, 0⟩).depth < depth ∧
      ((st.tt.lookup (zobrist_hash position castling opponent_castling en_passant
        king_passant color)).getD ⟨nullMove, -1, 0⟩).score < CHECKMATE_LOWER)
    (hillegal : ∀ m ∈ generate_moves position castling en_passant,
      (let np := make_move m position castling opponent_castling en_passant king_passant
      king_in_check (rotate_position np.1 np.2.1 np.2.2.1 np.2.2.2.1 np.2.2.2.2).1
        castling
        (rotate_position np.1 np.2.1 np.2.2.1 np.2.2.2.1 np.2.2.2.2).2.2.2.2) = true) :
    (nega_max cfg (fuel + 1) depth alpha beta position castling opponent_castling
      en_passant king_passant color st).1 =
      if king_in_check
          (rotate_position position castling opponent_castling en_passant
            king_passant).1 castling 0 then
        (-(CHECKMATE_LOWER - (cfg.maxDepth - depth)), nullMove)
      else (0, nullMove) := by
  have hd0 : (depth == 0) = false := beq_eq_false_iff_ne.mpr (by omega)
  have hc : (decide (((st.tt.lookup (zobrist_hash position castling opponent_castling
        en_passant king_passant color)).getD ⟨nullMove, -1, 0⟩).depth ≥ depth) ||
      decide (((st.tt.lookup (zobrist_hash position castling opponent_castling
        en_passant king_passant color)).getD ⟨nullMove, -1, 0⟩).score ≥
        CHECKMATE_LOWER)) = false := by
    rw [Bool.or_eq_false_iff]
    constructor
    · rw [decide_eq_false_iff_not]
      omega
    · rw [decide_eq_false_iff_not]
      omega
  rw [nega_max]
  simp only [pollClock, htick, Bool.false_eq_true, if_false, hd0, hc]
  rw [nega_max_loop_all_illegal _ _ _ _ _ _ _ _ _ _ _ _ _ _
    (fun m hm => hillegal m (pv_reorder_subset hm))]
  simp only [Bool.not_eq_true, Bool.false_eq_true, not_false_eq_true, if_true]
  split
  · have harith : -CHECKMATE_LOWER + cfg.maxDepth - depth =
        -(CHECKMATE_LOWER - (cfg.maxDepth - depth)) := by ring
    rw [harith]
  · rfl

set_option maxRecDepth 200000 in
/-- Closed instance of `c7_no_legal_moves_mate_or_stalemate`: a mover with
no pieces has no generated moves; after rotation its king is missing, so
`king_in_check` reports true and the call returns the depth-adjusted mate
score with the null best move. -/
theorem c7_no_legal_moves_witness :
    (nega_max ⟨4, fun _ => false⟩ 10 2 (-CHECKMATE_UPPER) CHECKMATE_UPPER
        lone_black_king [false, false] [false, false] 0 0 'w' ⟨[], 0, 0, false⟩).1 =
      if king_in_check
          (rotate_position lone_black_king [false, false] [false, false] 0 0).1
          [false, false] 0 then
        (-(CHECKMATE_LOWER - ((4 : Int) - 2)), nullMove)
      else (0, nullMove) :=
  c7_no_legal_moves_mate_or_stalemate ⟨4, fun _ => false⟩ 9 2 (-CHECKMATE_UPPER)
    CHECKMATE_UPPER lone_black_king [false, false] [false, false] 0 0 'w'
    ⟨[], 0, 0, false⟩ rfl (by decide) ⟨by decide, by decide⟩
    (by
      intro m hm
      have hempty : generate_moves lone_black_king [false, false] 0 = [] := by decide
      rw [hempty] at hm
      exact absurd hm (List.not_mem_nil m))

theorem mem_stable_insert (before : Move → Move → Bool) (a m : Move) :
    ∀ l : List Move, m ∈ stable_insert before a l ↔ m = a ∨ m ∈ l := by
  intro l
  induction l with
  | nil => simp [stable_insert]
  | cons b rest ih =>
    unfold stable_insert
    split
    · simp
    · simp only [List.mem_cons, ih]
      tauto

theorem mem_stable_sort (before : Move → Move → Bool) (l : List Move) (m : Move) :
    m ∈ stable_sort before l ↔ m ∈ l := by
  unfold stable_sort
  suffices h : ∀ acc : List Move,
      m ∈ l.foldl (fun acc a => stable_insert before a acc) acc ↔ m ∈ acc ∨ m ∈ l by
    simpa using h []
  induction l with
  | nil => simp
  | cons b rest ih =>
    intro acc
    rw [List.foldl_cons, ih, mem_stable_insert]
    simp only [List.mem_cons]
    tauto

theorem mem_generate_moves (position : Board) (castling : List Bool) (ep : Int)
    (m : Move) :
    m ∈ generate_moves position castling ep ↔
      ∃ s : Nat, s < position.length ∧ pyIsUpper (getN position s) = true ∧
        ∃ dir ∈ PIECE_DIRECTIONS (getN position s),
          m ∈ ray_moves position castling ep (getN position s) (s : Int) dir
            (position.length + 1) ((s : Int) + dir) := by
  unfold generate_moves
  rw [mem_stable_sort]
  unfold generate_moves_unsorted
  constructor
  · intro h
    obtain ⟨s, hs, hmem⟩ := List.mem_flatMap.mp h
    rw [List.mem_range] at hs
    by_cases hup : pyIsUpper (getN position s) = true
    · rw [if_pos hup] at hmem
      obtain ⟨dir, hdir, hm⟩ := List.mem_flatMap.mp hmem
      exact ⟨s, hs, hup, dir, hdir, hm⟩
    · rw [if_neg hup] at hmem
      exact absurd hmem (List.not_mem_nil m)
  · intro ⟨s, hs, hup, dir, hdir, hm⟩
    refine List.mem_flatMap.mpr ⟨s, List.mem_range.mpr hs, ?_⟩
    rw [if_pos hup]
    exact List.mem_flatMap.mpr ⟨dir, hdir, hm⟩

/-- A scan square the slider passes through: neither whitespace nor a
piece of either color. -/
def passable (c : Char) : Prop :=
  pyIsSpace c = false ∧ pyIsUpper c = false ∧ pyIsLower c = false

theorem passable_wf_dot {p : Board} (hw : Wellformed p) {i : Nat} (hi : i < 120)
    (hp : passable (getN p i)) : getN p i = '.' := by
  obtain ⟨hs, hu, hl⟩ := hp
  rcases wf_cases hw hi with ⟨-, h2⟩ | ⟨-, -, h2⟩ | ⟨-, -, -, -, h5⟩
  · rw [h2] at hs
    exact absurd hs (by decide)
  · rw [h2] at hs
    exact absurd hs (by decide)
  · have hx := by simpa using h5
    rcases hx with hx | hx | hx | hx | hx | hx | hx | hx | hx | hx | hx | hx | hx <;>
      rw [hx] at hu hl ⊢ <;>
      first
        | rfl
        | exact absurd hu (by decide)
        | exact absurd hl (by decide)

theorem ray_moves_shape (position : Board) (castling : List Bool) (ep : Int)
    (pm : Char) (start dir : Int) :
    ∀ (fuel : Nat) (k : Nat) (m : Move),
    m ∈ ray_moves position castling ep pm start dir fuel
      (start + ((k : Int) + 1) * dir) →
    (∀ j : Nat, 1 ≤ j → j ≤ k → passable (cellAt position (start + (j : Int) * dir))) →
    (1 ≤ k → pm ≠ 'P' ∧ pm ≠ 'N' ∧ pm ≠ 'K') →
    (m.start = start ∧ ∃ n : Nat, m.stop = start + ((n : Int) + 1) * dir ∧
      (1 ≤ n → pm ≠ 'P' ∧ pm ≠ 'N' ∧ pm ≠ 'K')) ∨
    (∃ n : Nat, start = 91 ∧ castling.getD 0 false = true ∧
      m = ⟨start + ((n : Int) + 1) * dir + 1, start + ((n : Int) + 1) * dir - 1,
        cellAt position (start + ((n : Int) + 1) * dir), ' '⟩ ∧
      cellAt position (start + ((n : Int) + 1) * dir + 1) = 'K' ∧
      passable (cellAt position (start + ((n : Int) + 1) * dir)) ∧
      (∀ j : Nat, 1 ≤ j → j ≤ n →
        passable (cellAt position (start + (j : Int) * dir))) ∧
      pm ≠ 'P' ∧ pm ≠ 'N' ∧ pm ≠ 'K') ∨
    (∃ n : Nat, start = 98 ∧ castling.getD 1 false = true ∧
      m = ⟨start + ((n : Int) + 1) * dir - 1, start + ((n : Int) + 1) * dir + 1,
        cellAt position (start + ((n : Int) + 1) * dir), ' '⟩ ∧
      cellAt position (start + ((n : Int) + 1) * dir - 1) = 'K' ∧
      passable (cellAt position (start + ((n : Int) + 1) * dir)) ∧
      (∀ j : Nat, 1 ≤ j → j ≤ n →
        passable (cellAt position (start + (j : Int) * dir))) ∧
      pm ≠ 'P' ∧ pm ≠ 'N' ∧ pm ≠ 'K') := by
  intro fuel
  induction fuel with
  | zero =>
    intro k m hm _ _
    exact absurd hm (List.not_mem_nil m)
  | succ fuel ih =>
    intro k m hm hpath hk
    rw [ray_moves] at hm
    set e : Int := start + ((k : Int) + 1) * dir with he
    by_cases hc1 : (pyIsSpace (cellAt position e) || pyIsUpper (cellAt position e)) = true
    · rw [if_pos hc1] at hm
      exact absurd hm (List.not_mem_nil m)
    rw [if_neg hc1] at hm
    rw [Bool.or_eq_true, not_or] at hc1
    obtain ⟨hns, hnu⟩ := hc1
    rw [Bool.not_eq_true] at hns hnu
    by_cases hc2 : (pm == 'P' && (dir == NORTH || dir == NORTH + NORTH) &&
        cellAt position e != '.') = true
    · rw [if_pos hc2] at hm
      exact absurd hm (List.not_mem_nil m)
    rw [if_neg hc2] at hm
    by_cases hc3 : (pm == 'P' && dir == NORTH + NORTH &&
        (decide (start < A1 + NORTH) || cellAt position (start + NORTH) != '.')) = true
    · rw [if_pos hc3] at hm
      exact absurd hm (List.not_mem_nil m)
    rw [if_neg hc3] at hm
    by_cases hc4 : (pm == 'P' && (dir == NORTH + WEST || dir == NORTH + EAST) &&
        cellAt position e == '.' && e + SOUTH != ep) = true
    · rw [if_pos hc4] at hm
      exact absurd hm (List.not_mem_nil m)
    rw [if_neg hc4] at hm
    by_cases hc5 : (pm == 'P' && decide (A8 ≤ e) && decide (e ≤ H8)) = true
    · rw [if_pos hc5] at hm
      simp only [List.mem_cons, List.not_mem_nil, or_false] at hm
      rcases hm with rfl | rfl | rfl | rfl <;>
        exact Or.inl ⟨rfl, k, rfl, hk⟩
    rw [if_neg hc5] at hm
    rcases List.mem_cons.mp hm with rfl | hm2
    · exact Or.inl ⟨rfl, k, rfl, hk⟩
    by_cases hc6 : (pm == 'P' || pm == 'N' || pm == 'K' ||
        pyIsLower (cellAt position e)) = true
    · rw [if_pos hc6] at hm2
      exact absurd hm2 (List.not_mem_nil m)
    rw [if_neg hc6] at hm2
    simp only [Bool.or_eq_true, not_or, Bool.not_eq_true, beq_eq_false_iff_ne] at hc6
    obtain ⟨⟨⟨hpmP, hpmN⟩, hpmK⟩, hnl⟩ := hc6
    have hpass : passable (cellAt position e) := ⟨hns, hnu, hnl⟩
    have hpmfacts : pm ≠ 'P' ∧ pm ≠ 'N' ∧ pm ≠ 'K' := ⟨hpmP, hpmN, hpmK⟩
    rcases List.mem_append.mp hm2 with hm12 | hm4
    · rcases List.mem_append.mp hm12 with hmc1 | hmc2
      · by_cases hcc1 : (start == A1 && cellAt position (e + EAST) == 'K' &&
            castling.getD 0 false) = true
        · rw [if_pos hcc1] at hmc1
          simp only [Bool.and_eq_true, beq_iff_eq] at hcc1
          obtain ⟨⟨hstart, hK⟩, hcast⟩ := hcc1
          simp only [List.mem_singleton] at hmc1
          subst hmc1
          refine Or.inr (Or.inl ⟨k, ?_, hcast, ?_, ?_, hpass, hpath, hpmfacts⟩)
          · simpa [A1] using hstart
          · have hE : e + EAST = e + 1 := by simp only [EAST]
            have hW : e + WEST = e - 1 := by simp only [WEST]; omega
            rw [hE, hW]
          · have hE : e + EAST = e + 1 := by simp only [EAST]
            rwa [hE] at hK
        · rw [if_neg hcc1] at hmc1
          exact absurd hmc1 (List.not_mem_nil m)
      · by_cases hcc2 : (start == H1 && cellAt position (e + WEST) == 'K' &&
            castling.getD 1 false) = true
        · rw [if_pos hcc2] at hmc2
          simp only [Bool.and_eq_true, beq_iff_eq] at hcc2
          obtain ⟨⟨hstart, hK⟩, hcast⟩ := hcc2
          simp only [List.mem_singleton] at hmc2
          subst hmc2
          refine Or.inr (Or.inr ⟨k, ?_, hcast, ?_, ?_, hpass, hpath, hpmfacts⟩)
          · simpa [H1] using hstart
          · have hE : e + EAST = e + 1 := by simp only [EAST]
            have hW : e + WEST = e - 1 := by simp only [WEST]; omega
            rw [hE, hW]
          · have hW : e + WEST = e - 1 := by simp only [WEST]; omega
            rwa [hW] at hK
        · rw [if_neg hcc2] at hmc2
          exact absurd hmc2 (List.not_mem_nil m)
    · have harr : e + dir = start + (((k + 1 : Nat) : Int) + 1) * dir := by
        rw [he]
        push_cast
        ring
      rw [harr] at hm4
      refine ih (k + 1) m hm4 ?_ (fun _ => hpmfacts)
      intro j h1 h2
      by_cases hj : j ≤ k
      · exact hpath j h1 hj
      · have hjk : j = k + 1 := by omega
        subst hjk
        have heq : start + ((k + 1 : Nat) : Int) * dir = e := by
          rw [he]
          push_cast
          ring
        rwa [heq]

theorem cellAt_coe (p : Board) (i : Nat) : cellAt p (i : Int) = getN p i := by
  simp [cellAt]

theorem dirs_K : PIECE_DIRECTIONS 'K' = [-10, 1, 10, -1, -9, 11, 9, -11] := by decide

theorem dirs_Q : PIECE_DIRECTIONS 'Q' = [-10, 1, 10, -1, -9, 11, 9, -11] := by decide

theorem dirs_R : PIECE_DIRECTIONS 'R' = [-10, 1, 10, -1] := by decide

theorem dirs_B : PIECE_DIRECTIONS 'B' = [-9, 11, 9, -11] := by decide

theorem c2_forward_qs {position : Board} {castling : List Bool} {ep : Int}
    (hw : Wellformed position)
    (hmem : (⟨95, 93, '.', ' '⟩ : Move) ∈ generate_moves position castling ep)
    (hK : getN position 95 = 'K') :
    castling.getD 0 false = true ∧
      (getN position 91 = 'R' ∨ getN position 91 = 'Q') ∧
      getN position 92 = '.' ∧ getN position 93 = '.' ∧ getN position 94 = '.' := by
  obtain ⟨s, hs, hup, dir, hdir, hray⟩ := (mem_generate_moves _ _ _ _).mp hmem
  have hs120 : s < 120 := by rwa [wf_length hw] at hs
  have hidx : (s : Int) + dir = (s : Int) + (((0 : Nat) : Int) + 1) * dir := by
    push_cast
    ring
  rw [hidx] at hray
  rcases ray_moves_shape position castling ep (getN position s) (s : Int) dir _ 0
      _ hray (fun j h1 h2 => absurd (h1.trans h2) (by norm_num))
      (fun h => absurd h (by norm_num)) with
    ⟨hstart, n, hstop, himp⟩ | ⟨n, h91, hcast, hmove, hKcell, hpassE, hpathn, hpm⟩ |
    ⟨n, h98, -, hmove, -, -, -, -⟩
  · -- a normal move: then s = 95 and the mover is the king, which cannot
    -- reach 93 from 95 along any of its directions
    exfalso
    have h95 : (95 : Int) = (s : Int) := hstart
    have hs95 : s = 95 := by exact_mod_cast h95.symm
    subst hs95
    rw [hK] at hdir himp
    rw [dirs_K] at hdir
    simp only [List.mem_cons, List.not_mem_nil, or_false] at hdir
    have hstop93 : (93 : Int) = ((95 : Nat) : Int) + ((n : Int) + 1) * dir := hstop
    push_cast at hstop93
    rcases hdir with rfl | rfl | rfl | rfl | rfl | rfl | rfl | rfl
    · omega
    · omega
    · omega
    · -- dir = -1 forces n = 1, but a scan past the first square excludes kings
      exact (himp (by omega)).2.2 rfl
    · omega
    · omega
    · omega
    · omega
  · -- the queenside-castling emission: extract all the conditions
    have hs91 : s = 91 := by exact_mod_cast h91
    subst hs91
    rw [Move.mk.injEq] at hmove
    obtain ⟨hm1, hm2, hm3, -⟩ := hmove
    push_cast at hm1 hm2
    have hdir3 : ((n : Int) + 1) * dir = 3 := by linarith
    obtain ⟨-, -, -, -, hmm⟩ := wf_upper_inner hw hs120 hup
    have hRQ : getN position 91 = 'R' ∨ getN position 91 = 'Q' := by
      have hx := by simpa using hmm
      rcases hx with hx | hx | hx | hx | hx | hx
      · exact absurd hx hpm.1
      · exact absurd hx hpm.2.1
      · exfalso
        rw [hx, dirs_B] at hdir
        simp only [List.mem_cons, List.not_mem_nil, or_false] at hdir
        rcases hdir with rfl | rfl | rfl | rfl <;> omega
      · exact Or.inl hx
      · exact Or.inr hx
      · exact absurd hx hpm.2.2
    have hdn : dir = 1 ∧ n = 2 := by
      rcases hRQ with hx | hx
      · rw [hx, dirs_R] at hdir
        simp only [List.mem_cons, List.not_mem_nil, or_false] at hdir
        rcases hdir with rfl | rfl | rfl | rfl <;> omega
      · rw [hx, dirs_Q] at hdir
        simp only [List.mem_cons, List.not_mem_nil, or_false] at hdir
        rcases hdir with rfl | rfl | rfl | rfl | rfl | rfl | rfl | rfl <;> omega
    obtain ⟨hd1, hn2⟩ := hdn
    subst hd1
    subst hn2
    refine ⟨hcast, hRQ, ?_, ?_, ?_⟩
    · have hp := hpathn 1 (by norm_num) (by norm_num)
      have hi : ((91 : Nat) : Int) + ((1 : Nat) : Int) * 1 = ((92 : Nat) : Int) := by
        norm_num
      rw [hi, cellAt_coe] at hp
      exact passable_wf_dot hw (by norm_num) hp
    · have hp := hpathn 2 (by norm_num) (by norm_num)
      have hi : ((91 : Nat) : Int) + ((2 : Nat) : Int) * 1 = ((93 : Nat) : Int) := by
        norm_num
      rw [hi, cellAt_coe] at hp
      exact passable_wf_dot hw (by norm_num) hp
    · have hi : ((91 : Nat) : Int) + (((2 : Nat) : Int) + 1) * 1 = ((94 : Nat) : Int) := by
        norm_num
      rw [hi, cellAt_coe] at hm3
      exact hm3.symm
  · -- the kingside emission cannot produce (95, 93)
    exfalso
    rw [Move.mk.injEq] at hmove
    obtain ⟨hm1, hm2, -, -⟩ := hmove
    have hx1 : (95 : Int) = 98 + ((n : Int) + 1) * dir - 1 := by
      rw [h98] at hm1
      linarith
    have hx2 : (93 : Int) = 98 + ((n : Int) + 1) * dir + 1 := by
      rw [h98] at hm2
      linarith
    linarith

theorem c2_forward_ks {position : Board} {castling : List Bool} {ep : Int}
    (hw : Wellformed position)
    (hmem : (⟨95, 97, '.', ' '⟩ : Move) ∈ generate_moves position castling ep)
    (hK : getN position 95 = 'K') :
    castling.getD 1 false = true ∧
      (getN position 98 = 'R' ∨ getN position 98 = 'Q') ∧
      getN position 96 = '.' ∧ getN position 97 = '.' := by
  obtain ⟨s, hs, hup, dir, hdir, hray⟩ := (mem_generate_moves _ _ _ _).mp hmem
  have hs120 : s < 120 := by rwa [wf_length hw] at hs
  have hidx : (s : Int) + dir = (s : Int) + (((0 : Nat) : Int) + 1) * dir := by
    push_cast
    ring
  rw [hidx] at hray
  rcases ray_moves_shape position castling ep (getN position s) (s : Int) dir _ 0
      _ hray (fun j h1 h2 => absurd (h1.trans h2) (by norm_num))
      (fun h => absurd h (by norm_num)) with
    ⟨hstart, n, hstop, himp⟩ | ⟨n, h91, -, hmove, -, -, -, -⟩ |
    ⟨n, h98, hcast, hmove, hKcell, hpassE, hpathn, hpm⟩
  · -- a normal move: then s = 95 and the mover is the king, which cannot
    -- reach 97 from 95 along any of its directions
    exfalso
    have h95 : (95 : Int) = (s : Int) := hstart
    have hs95 : s = 95 := by exact_mod_cast h95.symm
    subst hs95
    rw [hK] at hdir himp
    rw [dirs_K] at hdir
    simp only [List.mem_cons, List.not_mem_nil, or_false] at hdir
    have hstop97 : (97 : Int) = ((95 : Nat) : Int) + ((n : Int) + 1) * dir := hstop
    push_cast at hstop97
    rcases hdir with rfl | rfl | rfl | rfl | rfl | rfl | rfl | rfl
    · omega
    · -- dir = 1 forces n = 1, but a scan past the first square excludes kings
      exact (himp (by omega)).2.2 rfl
    · omega
    · omega
    · omega
    · omega
    · omega
    · omega
  · -- the queenside emission cannot produce (95, 97)
    exfalso
    rw [Move.mk.injEq] at hmove
    obtain ⟨hm1, hm2, -, -⟩ := hmove
    linarith [hm1, hm2]
  · -- the kingside-castling emission: extract all the conditions
    have hs98 : s = 98 := by exact_mod_cast h98
    subst hs98
    rw [Move.mk.injEq] at hmove
    obtain ⟨hm1, hm2, hm3, -⟩ := hmove
    push_cast at hm1 hm2
    have hdir2 : ((n : Int) + 1) * dir = -2 := by linarith
    obtain ⟨-, -, -, -, hmm⟩ := wf_upper_inner hw hs120 hup
    have hRQ : getN position 98 = 'R' ∨ getN position 98 = 'Q' := by
      have hx := by simpa using hmm
      rcases hx with hx | hx | hx | hx | hx | hx
      · exact absurd hx hpm.1
      · exact absurd hx hpm.2.1
      · exfalso
        rw [hx, dirs_B] at hdir
        simp only [List.mem_cons, List.not_mem_nil, or_false] at hdir
        rcases hdir with rfl | rfl | rfl | rfl <;> omega
      · exact Or.inl hx
      · exact Or.inr hx
      · exact absurd hx hpm.2.2
    have hdn : dir = -1 ∧ n = 1 := by
      rcases hRQ with hx | hx
      · rw [hx, dirs_R] at hdir
        simp only [List.mem_cons, List.not_mem_nil, or_false] at hdir
        rcases hdir with rfl | rfl | rfl | rfl <;> omega
      · rw [hx, dirs_Q] at hdir
        simp only [List.mem_cons, List.not_mem_nil, or_false] at hdir
        rcases hdir with rfl | rfl | rfl | rfl | rfl | rfl | rfl | rfl <;> omega
    obtain ⟨hd1, hn1⟩ := hdn
    subst hd1
    subst hn1
    refine ⟨hcast, hRQ, ?_, ?_⟩
    · have hi : ((98 : Nat) : Int) + (((1 : Nat) : Int) + 1) * -1 = ((96 : Nat) : Int) := by
        norm_num
      rw [hi, cellAt_coe] at hm3
      exact hm3.symm
    · have hp := hpathn 1 (by norm_num) (by norm_num)
      have hi : ((98 : Nat) : Int) + ((1 : Nat) : Int) * -1 = ((97 : Nat) : Int) := by
        norm_num
      rw [hi, cellAt_coe] at hp
      exact passable_wf_dot hw (by norm_num) hp

theorem ray_step_mem (position : Board) (castling : List Bool) (ep : Int)
    (pm : Char) (start dir : Int) (fuel : Nat) (e : Int) (m : Move)
    (hpm : pm = 'R' ∨ pm = 'Q') (hcell : cellAt position e = '.')
    (hnext : m ∈ ray_moves position castling ep pm start dir fuel (e + dir)) :
    m ∈ ray_moves position castling ep pm start dir (fuel + 1) e := by
  have hP : (pm == 'P') = false := by rcases hpm with rfl | rfl <;> decide
  have hN : (pm == 'N') = false := by rcases hpm with rfl | rfl <;> decide
  have hKp : (pm == 'K') = false := by rcases hpm with rfl | rfl <;> decide
  have hA : (pyIsSpace ('.') || pyIsUpper ('.')) = false := by decide
  have hL : pyIsLower ('.') = false := by decide
  rw [ray_moves, hcell]
  simp only [hP, hN, hKp, hA, hL, Bool.false_and, Bool.and_false, Bool.false_or,
    Bool.or_false, Bool.false_eq_true, if_false, List.mem_cons, List.mem_append]
  tauto

theorem ray_emit_qs (position : Board) (castling : List Bool) (ep : Int)
    (pm : Char) (dir : Int) (fuel : Nat) (e : Int)
    (hpm : pm = 'R' ∨ pm = 'Q') (hcell : cellAt position e = '.')
    (hK : cellAt position (e + EAST) = 'K') (hcast : castling.getD 0 false = true) :
    (⟨e + EAST, e + WEST, '.', ' '⟩ : Move) ∈
      ray_moves position castling ep pm A1 dir (fuel + 1) e := by
  have hP : (pm == 'P') = false := by rcases hpm with rfl | rfl <;> decide
  have hN : (pm == 'N') = false := by rcases hpm with rfl | rfl <;> decide
  have hKp : (pm == 'K') = false := by rcases hpm with rfl | rfl <;> decide
  have hA : (pyIsSpace ('.') || pyIsUpper ('.')) = false := by decide
  have hL : pyIsLower ('.') = false := by decide
  have hAA : (A1 == A1) = true := by decide
  have hKK : (('K' : Char) == 'K') = true := by decide
  rw [ray_moves, hcell]
  simp only [hP, hN, hKp, hA, hL, hAA, hK, hKK, hcast, Bool.false_and, Bool.and_false,
    Bool.false_or, Bool.or_false, Bool.true_and, Bool.and_true, Bool.false_eq_true, if_false, if_true, List.mem_cons, List.mem_append,
    List.mem_singleton]
  tauto

theorem ray_emit_ks (position : Board) (castling : List Bool) (ep : Int)
    (pm : Char) (dir : Int) (fuel : Nat) (e : Int)
    (hpm : pm = 'R' ∨ pm = 'Q') (hcell : cellAt position e = '.')
    (hK : cellAt position (e + WEST) = 'K') (hcast : castling.getD 1 false = true) :
    (⟨e + WEST, e + EAST, '.', ' '⟩ : Move) ∈
      ray_moves position castling ep pm H1 dir (fuel + 1) e := by
  have hP : (pm == 'P') = false := by rcases hpm with rfl | rfl <;> decide
  have hN : (pm == 'N') = false := by rcases hpm with rfl | rfl <;> decide
  have hKp : (pm == 'K') = false := by rcases hpm with rfl | rfl <;> decide
  have hA : (pyIsSpace ('.') || pyIsUpper ('.')) = false := by decide
  have hL : pyIsLower ('.') = false := by decide
  have hHH : (H1 == H1) = true := by decide
  have hKK : (('K' : Char) == 'K') = true := by decide
  rw [ray_moves, hcell]
  simp only [hP, hN, hKp, hA, hL, hHH, hK, hKK, hcast, Bool.false_and, Bool.and_false,
    Bool.false_or, Bool.or_false, Bool.true_and, Bool.and_true, Bool.false_eq_true, if_false, if_true, List.mem_cons, List.mem_append,
    List.mem_singleton]
  tauto

theorem c2_reverse_qs {position : Board} {castling : List Bool} {ep : Int}
    (hw : Wellformed position)
    (hcast : castling.getD 0 false = true)
    (hR : getN position 91 = 'R' ∨ getN position 91 = 'Q')
    (h92 : getN position 92 = '.') (h93 : getN position 93 = '.')
    (h94 : getN position 94 = '.') (hK : getN position 95 = 'K') :
    (⟨95, 93, '.', ' '⟩ : Move) ∈ generate_moves position castling ep := by
  have hc92 : cellAt position (92 : Int) = '.' := by
    rw [(by norm_num : (92 : Int) = ((92 : Nat) : Int)), cellAt_coe]
    exact h92
  have hc93 : cellAt position (93 : Int) = '.' := by
    rw [(by norm_num : (93 : Int) = ((93 : Nat) : Int)), cellAt_coe]
    exact h93
  have hc94 : cellAt position (94 : Int) = '.' := by
    rw [(by norm_num : (94 : Int) = ((94 : Nat) : Int)), cellAt_coe]
    exact h94
  have hcK : cellAt position ((94 : Int) + EAST) = 'K' := by
    rw [(by norm_num [EAST] : (94 : Int) + EAST = ((95 : Nat) : Int)), cellAt_coe]
    exact hK
  have s1 : (⟨95, 93, '.', ' '⟩ : Move) ∈
      ray_moves position castling ep (getN position 91) A1 1 (118 + 1) 94 := by
    have h := ray_emit_qs position castling ep (getN position 91) 1 118 94 hR hc94 hcK hcast
    have hmv : (⟨(94 : Int) + EAST, (94 : Int) + WEST, '.', ' '⟩ : Move) =
        ⟨95, 93, '.', ' '⟩ := by
      norm_num [EAST, WEST, Move.mk.injEq]
    rwa [hmv] at h
  have s2 : (⟨95, 93, '.', ' '⟩ : Move) ∈
      ray_moves position castling ep (getN position 91) A1 1 (119 + 1) 93 := by
    refine ray_step_mem position castling ep _ A1 1 119 93 _ hR hc93 ?_
    rw [(by norm_num : (93 : Int) + 1 = 94)]
    exact s1
  have s3 : (⟨95, 93, '.', ' '⟩ : Move) ∈
      ray_moves position castling ep (getN position 91) A1 1 (120 + 1) 92 := by
    refine ray_step_mem position castling ep _ A1 1 120 92 _ hR hc92 ?_
    rw [(by norm_num : (92 : Int) + 1 = 93)]
    exact s2
  refine (mem_generate_moves _ _ _ _).mpr ⟨91, ?_, ?_, 1, ?_, ?_⟩
  · rw [wf_length hw]
    norm_num
  · rcases hR with hx | hx <;> rw [hx] <;> decide
  · rcases hR with hx | hx <;> rw [hx]
    · rw [dirs_R]
      norm_num
    · rw [dirs_Q]
      norm_num
  · rw [wf_length hw, (by norm_num [A1] : ((91 : Nat) : Int) = A1),
      (by norm_num [A1] : A1 + (1 : Int) = 92)]
    exact s3

theorem c2_reverse_ks {position : Board} {castling : List Bool} {ep : Int}
    (hw : Wellformed position)
    (hcast : castling.getD 1 false = true)
    (hR : getN position 98 = 'R' ∨ getN position 98 = 'Q')
    (h96 : getN position 96 = '.') (h97 : getN position 97 = '.')
    (hK : getN position 95 = 'K') :
    (⟨95, 97, '.', ' '⟩ : Move) ∈ generate_moves position castling ep := by
  have hc96 : cellAt position (96 : Int) = '.' := by
    rw [(by norm_num : (96 : Int) = ((96 : Nat) : Int)), cellAt_coe]
    exact h96
  have hc97 : cellAt position (97 : Int) = '.' := by
    rw [(by norm_num : (97 : Int) = ((97 : Nat) : Int)), cellAt_coe]
    exact h97
  have hcK : cellAt position ((96 : Int) + WEST) = 'K' := by
    rw [(by norm_num [WEST] : (96 : Int) + WEST = ((95 : Nat) : Int)), cellAt_coe]
    exact hK
  have s1 : (⟨95, 97, '.', ' '⟩ : Move) ∈
      ray_moves position castling ep (getN position 98) H1 (-1) (119 + 1) 96 := by
    have h := ray_emit_ks position castling ep (getN position 98) (-1) 119 96 hR hc96 hcK hcast
    have hmv : (⟨(96 : Int) + WEST, (96 : Int) + EAST, '.', ' '⟩ : Move) =
        ⟨95, 97, '.', ' '⟩ := by
      norm_num [EAST, WEST, Move.mk.injEq]
    rwa [hmv] at h
  have s2 : (⟨95, 97, '.', ' '⟩ : Move) ∈
      ray_moves position castling ep (getN position 98) H1 (-1) (120 + 1) 97 := by
    refine ray_step_mem position castling ep _ H1 (-1) 120 97 _ hR hc97 ?_
    rw [(by norm_num : (97 : Int) + (-1) = 96)]
    exact s1
  refine (mem_generate_moves _ _ _ _).mpr ⟨98, ?_, ?_, -1, ?_, ?_⟩
  · rw [wf_length hw]
    norm_num
  · rcases hR with hx | hx <;> rw [hx] <;> decide
  · rcases hR with hx | hx <;> rw [hx]
    · rw [dirs_R]
      norm_num
    · rw [dirs_Q]
      norm_num
  · rw [wf_length hw, (by norm_num [H1] : ((98 : Nat) : Int) = H1),
      (by norm_num [H1] : H1 + (-1 : Int) = 97)]
    exact s2

/-- A board with a white QUEEN (not a rook) on a1, the white king on e1 and
the black king on e8-side, used to exercise the castling emission. -/
def c2_board : Board :=
  ("         \n" ++
   "         \n" ++
   " ....k...\n" ++
   " ........\n" ++
   " ........\n" ++
   " ........\n" ++
   " ........\n" ++
   " ........\n" ++
   " ........\n" ++
   " Q...K...\n" ++
   "         \n" ++
   "         \n").toList

set_option maxRecDepth 200000 in
/-- C2 counterexample: with a queen on a1 (no rook anywhere), the king on e1
and queenside rights set, generate_moves still emits the queenside castling
move e1-c1, so the claim's requirement that the rook stands on its home cell
is not checked by the code. -/
theorem c2_counterexample_queen_emits_castling :
    (⟨95, 93, '.', ' '⟩ : Move) ∈ generate_moves c2_board [true, true] 0 ∧
      getN c2_board 95 = 'K' ∧ getN c2_board 91 ≠ 'R' := by
  refine ⟨by decide, by decide, by decide⟩

/-- C2 (corrected): on a well-formed board with the mover's king on e1, the
generator emits the queenside castling move e1-c1 iff the queenside right is
set, a1 holds a friendly rook OR QUEEN, and b1, c1, d1 are empty; it emits
the kingside move e1-g1 iff the kingside right is set, h1 holds a friendly
rook or queen, and f1, g1 are empty.  The rook condition of the original
claim is not enforced: any friendly slider on the corner emits castling. -/
theorem c2_castling_emission_characterized {position : Board} {castling : List Bool}
    {ep : Int} (hw : Wellformed position) (hK : getN position 95 = 'K') :
    ((⟨95, 93, '.', ' '⟩ : Move) ∈ generate_moves position castling ep ↔
      castling.getD 0 false = true ∧
        (getN position 91 = 'R' ∨ getN position 91 = 'Q') ∧
        getN position 92 = '.' ∧ getN position 93 = '.' ∧ getN position 94 = '.') ∧
    ((⟨95, 97, '.', ' '⟩ : Move) ∈ generate_moves position castling ep ↔
      castling.getD 1 false = true ∧
        (getN position 98 = 'R' ∨ getN position 98 = 'Q') ∧
        getN position 96 = '.' ∧ getN position 97 = '.') := by
  constructor
  · constructor
    · intro hm
      exact c2_forward_qs hw hm hK
    · rintro ⟨h1, h2, h3, h4, h5⟩
      exact c2_reverse_qs hw h1 h2 h3 h4 h5 hK
  · constructor
    · intro hm
      exact c2_forward_ks hw hm hK
    · rintro ⟨h1, h2, h3, h4⟩
      exact c2_reverse_ks hw h1 h2 h3 h4 hK

set_option maxRecDepth 200000 in
/-- Witness for the corrected C2: the characterization instantiated on the
queen-on-a1 board. -/
theorem c2_castling_emission_characterized_witness :
    Wellformed c2_board ∧ getN c2_board 95 = 'K' ∧
    (((⟨95, 93, '.', ' '⟩ : Move) ∈ generate_moves c2_board [true, true] 0 ↔
      ([true, true] : List Bool).getD 0 false = true ∧
        (getN c2_board 91 = 'R' ∨ getN c2_board 91 = 'Q') ∧
        getN c2_board 92 = '.' ∧ getN c2_board 93 = '.' ∧ getN c2_board 94 = '.') ∧
    ((⟨95, 97, '.', ' '⟩ : Move) ∈ generate_moves c2_board [true, true] 0 ↔
      ([true, true] : List Bool).getD 1 false = true ∧
        (getN c2_board 98 = 'R' ∨ getN c2_board 98 = 'Q') ∧
        getN c2_board 96 = '.' ∧ getN c2_board 97 = '.')) :=
  ⟨by decide, by decide, c2_castling_emission_characterized (by decide) (by decide)⟩

/-- The horizontal (file) mirror of a square: same row, column `9 - c`. -/
def hmirror (square : Nat) : Nat := (square / 10) * 10 + (9 - square % 10)

/-- The board reflected file-wise (ranks kept, files a..h reversed inside
each row, sentinels untouched).  This is the spec-side definition used to
state what symmetry the evaluator actually has: the code's opponent lookup
mirrors ranks only, so rotation antisymmetry holds against this mirror of
the board, not against the board itself. -/
def hmirrorBoard (p : Board) : Board :=
  (List.range p.length).map fun i =>
    if 1 ≤ i % 10 ∧ i % 10 ≤ 8 then getN p (hmirror i) else getN p i

theorem hmirrorBoard_length (p : Board) : (hmirrorBoard p).length = p.length := by
  simp [hmirrorBoard]

theorem getN_map_range (f : Nat → Char) (n j : Nat) (hj : j < n) :
    getN ((List.range n).map f) j = f j := by
  rw [getN_eq_getElem (by simpa using hj)]
  simp

theorem hmirrorBoard_getN (p : Board) (j : Nat) (hj : j < p.length) :
    getN (hmirrorBoard p) j =
      if 1 ≤ j % 10 ∧ j % 10 ≤ 8 then getN p (hmirror j) else getN p j :=
  getN_map_range _ _ _ hj

theorem pyFind_unique (q : Board) (c : Char) (i : Nat) (hq : i < q.length)
    (hc : getN q i = c) (hu : ∀ j, j < q.length → j ≠ i → getN q j ≠ c) :
    pyFind q c = (i : Int) := by
  unfold pyFind
  cases hf : List.findIdx? (fun x => x == c) q with
  | none =>
    exfalso
    rw [List.findIdx?_eq_none_iff] at hf
    have hmem : q[i] ∈ q := List.getElem_mem hq
    have hx := hf _ hmem
    rw [← getN_eq_getElem hq, hc] at hx
    simp at hx
  | some j =>
    obtain ⟨hjl, hpj, -⟩ := List.findIdx?_eq_some_iff_getElem.mp hf
    have hgj : getN q j = c := by
      rw [getN_eq_getElem hjl]
      simpa using hpj
    by_cases hji : j = i
    · rw [hji]
    · exact absurd hgj (hu j hjl hji)

theorem vmirror_lt {j : Nat} (hj : j < 120) : vmirror j < 120 := by
  simp only [vmirror]
  omega

theorem vmirror_invol {j : Nat} (hj : j < 120) : vmirror (vmirror j) = j := by
  simp only [vmirror]
  omega

theorem vmirror_mod (j : Nat) : vmirror j % 10 = j % 10 := by
  simp only [vmirror]
  omega

theorem hmirror_vmirror {j : Nat} (hj : j < 120) (hc1 : 1 ≤ j % 10)
    (hc8 : j % 10 ≤ 8) : hmirror (vmirror j) = 119 - j := by
  simp only [hmirror, vmirror]
  omega

/-- The tropism-distance identity behind the corrected symmetry: the
distance from a square to the 180-degree image of a king equals the
distance from the rank-mirrored square to the file-mirrored king. -/
theorem dist_key (a b : Nat) (ha : a < 120) (hb : b < 120)
    (h1 : 1 ≤ b % 10) (h2 : b % 10 ≤ 8) :
    manhattan_distance (a : Int) ((119 - b : Nat) : Int) =
    manhattan_distance ((vmirror a : Nat) : Int) ((hmirror b : Nat) : Int) := by
  simp only [manhattan_distance, vmirror, hmirror]
  omega

theorem sw_upper {x : Char} (hx : x ∈ ("PNBRQKpnbrqk.".toList))
    (hu : pyIsUpper x = true) :
    pyIsUpper (swapcase x) = false ∧ pyIsLower (swapcase x) = true ∧
      pyUpper (swapcase x) = x := by
  have hx13 := by simpa using hx
  rcases hx13 with hx1 | hx1 | hx1 | hx1 | hx1 | hx1 | hx1 | hx1 | hx1 | hx1 | hx1 | hx1 | hx1 <;>
    subst hx1 <;>
    first
      | exact ⟨by decide, by decide, by decide⟩
      | exact absurd hu (by decide)

theorem sw_lower {x : Char} (hx : x ∈ ("PNBRQKpnbrqk.".toList))
    (hl : pyIsLower x = true) :
    pyIsUpper (swapcase x) = true ∧ swapcase x = pyUpper x := by
  have hx13 := by simpa using hx
  rcases hx13 with hx1 | hx1 | hx1 | hx1 | hx1 | hx1 | hx1 | hx1 | hx1 | hx1 | hx1 | hx1 | hx1 <;>
    subst hx1 <;>
    first
      | exact ⟨by decide, by decide⟩
      | exact absurd hl (by decide)

theorem sw_none {x : Char} (hx : x ∈ ("PNBRQKpnbrqk.".toList))
    (hu : pyIsUpper x = false) (hl : pyIsLower x = false) :
    pyIsUpper (swapcase x) = false ∧ pyIsLower (swapcase x) = false := by
  have hx13 := by simpa using hx
  rcases hx13 with hx1 | hx1 | hx1 | hx1 | hx1 | hx1 | hx1 | hx1 | hx1 | hx1 | hx1 | hx1 | hx1 <;>
    subst hx1 <;>
    first
      | exact ⟨by decide, by decide⟩
      | exact absurd hu (by decide)
      | exact absurd hl (by decide)

theorem score_term_upper (V : Char → Int) (PST : Char → List Int) (T : Char → Int)
    (q : Board) (K O : Int) {s : Nat} (h1 : pyIsUpper (getN q s) = true) :
    score_term V PST T q K O s =
      V (getN q s) + tget (PST (getN q s)) (s : Int) +
        T (getN q s) / manhattan_distance (s : Int) O := by
  simp only [score_term]
  rw [if_pos h1]

theorem score_term_lower (V : Char → Int) (PST : Char → List Int) (T : Char → Int)
    (q : Board) (K O : Int) {s : Nat} (h1 : pyIsUpper (getN q s) = false)
    (h2 : pyIsLower (getN q s) = true) :
    score_term V PST T q K O s =
      -(V (pyUpper (getN q s)) + tget (PST (pyUpper (getN q s))) ((vmirror s : Nat) : Int) +
        T (pyUpper (getN q s)) / manhattan_distance (s : Int) K) := by
  simp only [score_term]
  rw [if_neg (by rw [h1]; decide), if_pos h2]

theorem score_term_zero (V : Char → Int) (PST : Char → List Int) (T : Char → Int)
    (q : Board) (K O : Int) {s : Nat} (h1 : pyIsUpper (getN q s) = false)
    (h2 : pyIsLower (getN q s) = false) :
    score_term V PST T q K O s = 0 := by
  simp only [score_term]
  rw [if_neg (by rw [h1]; decide), if_neg (by rw [h2]; decide)]

theorem rot_king_find {p : Board} (hw : Wellformed p) {t : Nat} {a b : Char}
    (hc1 : 1 ≤ t % 10) (hc8 : t % 10 ≤ 8) (hr2 : 2 ≤ t / 10) (hr9 : t / 10 ≤ 9)
    (hab : swapcase a = b)
    (hinj : ∀ y ∈ ("PNBRQKpnbrqk.".toList), swapcase y = b → y = a)
    (hspb : pyIsSpace b = false)
    (hc : getN p t = a) (hu : ∀ j, j < 120 → j ≠ t → getN p j ≠ a) :
    pyFind (rotateBoard p) b = ((119 - t : Nat) : Int) := by
  have ht : t < 120 := by omega
  have hlrot : (rotateBoard p).length = 120 := by rw [rotateBoard_length, wf_length hw]
  refine pyFind_unique _ _ (119 - t) ?_ ?_ ?_
  · rw [hlrot]
    omega
  · have h119 : 119 - t < 120 := by omega
    rw [rotateBoard_getN_wf hw h119]
    have hnsp : ¬ (pyIsSpace (getN p (119 - t)) = true) := by
      rw [wf_space_iff hw h119]
      omega
    rw [if_neg hnsp, (by omega : 119 - (119 - t) = t), hc, hab]
  · intro j hj hji
    rw [hlrot] at hj
    rw [rotateBoard_getN_wf hw hj]
    by_cases hs : pyIsSpace (getN p j) = true
    · rw [if_pos hs]
      intro hcon
      rw [hcon, hspb] at hs
      exact absurd hs (by decide)
    · rw [if_neg hs]
      intro hcon
      have hcoord : ¬(j % 10 = 0 ∨ j % 10 = 9 ∨ j < 20 ∨ 100 ≤ j) :=
        fun h => hs ((wf_space_iff hw hj).mpr h)
      have h119j : 119 - j < 120 := by omega
      have hy13 : getN p (119 - j) ∈ ("PNBRQKpnbrqk.".toList) := by
        rcases wf_cases hw h119j with ⟨h9, -⟩ | ⟨h0, -, -⟩ | ⟨-, -, -, -, h5⟩
        · exact absurd h9 (by omega)
        · exact absurd h0 (by omega)
        · exact h5
      have hya := hinj _ hy13 hcon
      exact hu (119 - j) h119j (by omega) hya

theorem hm_king_find {p : Board} (hw : Wellformed p) {t : Nat} {a : Char}
    (hc1 : 1 ≤ t % 10) (hc8 : t % 10 ≤ 8) (ht : t < 120)
    (hc : getN p t = a) (hu : ∀ j, j < 120 → j ≠ t → getN p j ≠ a) :
    pyFind (hmirrorBoard p) a = ((hmirror t : Nat) : Int) := by
  have hlhm : (hmirrorBoard p).length = 120 := by rw [hmirrorBoard_length, wf_length hw]
  have hmt : hmirror t < 120 := by simp only [hmirror]; omega
  refine pyFind_unique _ _ (hmirror t) ?_ ?_ ?_
  · rw [hlhm]
    exact hmt
  · rw [hmirrorBoard_getN p (hmirror t) (by rw [wf_length hw]; exact hmt)]
    rw [if_pos (by simp only [hmirror]; omega),
      (by simp only [hmirror]; omega : hmirror (hmirror t) = t), hc]
  · intro j hj hjn
    rw [hlhm] at hj
    rw [hmirrorBoard_getN p j (by rw [wf_length hw]; exact hj)]
    by_cases hcol : 1 ≤ j % 10 ∧ j % 10 ≤ 8
    · rw [if_pos hcol]
      apply hu
      · simp only [hmirror]
        omega
      · intro hcontra
        apply hjn
        rw [← hcontra]
        simp only [hmirror]
        omega
    · rw [if_neg hcol]
      apply hu j hj
      omega

/-- One square of the corrected symmetry: the contribution of square `j` on
the rotated board is minus the contribution of the rank-mirrored square on
the file-mirrored board, with the kings placed accordingly. -/
theorem c6_term (V : Char → Int) (PST : Char → List Int) (T : Char → Int)
    {p : Board} (hw : Wellformed p) {tK tk : Nat}
    (hKc1 : 1 ≤ tK % 10) (hKc8 : tK % 10 ≤ 8) (htK : tK < 120)
    (hkc1 : 1 ≤ tk % 10) (hkc8 : tk % 10 ≤ 8) (htk : tk < 120)
    (j : Nat) (hj : j < 120) :
    score_term V PST T (rotateBoard p) ((119 - tk : Nat) : Int) ((119 - tK : Nat) : Int) j
      = -(score_term V PST T (hmirrorBoard p) ((hmirror tK : Nat) : Int)
          ((hmirror tk : Nat) : Int) (vmirror j)) := by
  have hvj : vmirror j < 120 := vmirror_lt hj
  have hrot := rotateBoard_getN_wf hw hj
  have hhm := hmirrorBoard_getN p (vmirror j) (by rw [wf_length hw]; exact hvj)
  by_cases hsp : pyIsSpace (getN p j) = true
  · -- sentinel cell: both contributions vanish
    rw [if_pos hsp] at hrot
    have hcoords := (wf_space_iff hw hj).mp hsp
    have hL0 : pyIsUpper (getN (rotateBoard p) j) = false ∧
        pyIsLower (getN (rotateBoard p) j) = false := by
      rw [hrot]
      rcases wf_cases hw hj with ⟨-, h2⟩ | ⟨-, -, h2⟩ | ⟨hc1, hc8, hr2, hr9, -⟩
      · rw [h2]
        exact ⟨by decide, by decide⟩
      · rw [h2]
        exact ⟨by decide, by decide⟩
      · exact absurd hcoords (by omega)
    have hR0 : pyIsUpper (getN (hmirrorBoard p) (vmirror j)) = false ∧
        pyIsLower (getN (hmirrorBoard p) (vmirror j)) = false := by
      rw [hhm]
      by_cases hcol : 1 ≤ vmirror j % 10 ∧ vmirror j % 10 ≤ 8
      · rw [if_pos hcol]
        rw [vmirror_mod] at hcol
        rw [hmirror_vmirror hj hcol.1 hcol.2]
        have h119 : 119 - j < 120 := by omega
        rcases wf_cases hw h119 with ⟨-, h2⟩ | ⟨-, -, h2⟩ | ⟨hc1, hc8, hr2, hr9, -⟩
        · rw [h2]
          exact ⟨by decide, by decide⟩
        · rw [h2]
          exact ⟨by decide, by decide⟩
        · exact absurd hcoords (by omega)
      · rw [if_neg hcol]
        rw [vmirror_mod] at hcol
        rcases wf_cases hw hvj with ⟨-, h2⟩ | ⟨-, -, h2⟩ | ⟨hc1, hc8, hr2, hr9, -⟩
        · rw [h2]
          exact ⟨by decide, by decide⟩
        · rw [h2]
          exact ⟨by decide, by decide⟩
        · rw [vmirror_mod] at hc1 hc8
          exact absurd hcol (by omega)
    rw [score_term_zero V PST T _ _ _ hL0.1 hL0.2, score_term_zero V PST T _ _ _ hR0.1 hR0.2]
    norm_num
  · -- inner cell
    rw [if_neg hsp] at hrot
    have hcoord : ¬(j % 10 = 0 ∨ j % 10 = 9 ∨ j < 20 ∨ 100 ≤ j) :=
      fun h => hsp ((wf_space_iff hw hj).mpr h)
    have hjc1 : 1 ≤ j % 10 := by omega
    have hjc8 : j % 10 ≤ 8 := by omega
    have h119 : 119 - j < 120 := by omega
    have hx13 : getN p (119 - j) ∈ ("PNBRQKpnbrqk.".toList) := by
      rcases wf_cases hw h119 with ⟨h9, -⟩ | ⟨h0, -, -⟩ | ⟨-, -, -, -, h5⟩
      · exact absurd h9 (by omega)
      · exact absurd h0 (by omega)
      · exact h5
    have hhm2 : getN (hmirrorBoard p) (vmirror j) = getN p (119 - j) := by
      rw [hhm, if_pos (by rw [vmirror_mod]; omega), hmirror_vmirror hj hjc1 hjc8]
    by_cases hu : pyIsUpper (getN p (119 - j)) = true
    · obtain ⟨g1, g2, g3⟩ := sw_upper hx13 hu
      have l1 : pyIsUpper (getN (rotateBoard p) j) = false := by rw [hrot]; exact g1
      have l2 : pyIsLower (getN (rotateBoard p) j) = true := by rw [hrot]; exact g2
      have r1 : pyIsUpper (getN (hmirrorBoard p) (vmirror j)) = true := by
        rw [hhm2]; exact hu
      rw [score_term_lower V PST T _ _ _ l1 l2, score_term_upper V PST T _ _ _ r1,
        hrot, hhm2, g3, dist_key j tk hj htk hkc1 hkc8]
    · by_cases hl : pyIsLower (getN p (119 - j)) = true
      · obtain ⟨g1, g2⟩ := sw_lower hx13 hl
        have l1 : pyIsUpper (getN (rotateBoard p) j) = true := by rw [hrot]; exact g1
        have r1 : pyIsUpper (getN (hmirrorBoard p) (vmirror j)) = false := by
          rw [hhm2, Bool.eq_false_iff]
          exact hu
        have r2 : pyIsLower (getN (hmirrorBoard p) (vmirror j)) = true := by
          rw [hhm2]; exact hl
        rw [score_term_upper V PST T _ _ _ l1, score_term_lower V PST T _ _ _ r1 r2,
          hrot, g2, hhm2, vmirror_invol hj, dist_key j tK hj htK hKc1 hKc8]
        ring
      · have hu' : pyIsUpper (getN p (119 - j)) = false := by
          rw [Bool.eq_false_iff]; exact hu
        have hl' : pyIsLower (getN p (119 - j)) = false := by
          rw [Bool.eq_false_iff]; exact hl
        obtain ⟨g1, g2⟩ := sw_none hx13 hu' hl'
        have l1 : pyIsUpper (getN (rotateBoard p) j) = false := by rw [hrot]; exact g1
        have l2 : pyIsLower (getN (rotateBoard p) j) = false := by rw [hrot]; exact g2
        have r1 : pyIsUpper (getN (hmirrorBoard p) (vmirror j)) = false := by
          rw [hhm2]; exact hu'
        have r2 : pyIsLower (getN (hmirrorBoard p) (vmirror j)) = false := by
          rw [hhm2]; exact hl'
        rw [score_term_zero V PST T _ _ _ l1 l2, score_term_zero V PST T _ _ _ r1 r2]
        norm_num

theorem list_range_sum_int (f : Nat → Int) (n : Nat) :
    ((List.range n).map f).sum = ∑ i in Finset.range n, f i := by
  induction n with
  | zero => simp
  | succ n ih =>
    rw [List.range_succ, List.map_append, List.sum_append, Finset.sum_range_succ, ih]
    simp

theorem sum_range_vmirror (g : Nat → Int) :
    ∑ i in Finset.range 120, g (vmirror i) = ∑ i in Finset.range 120, g i := by
  refine Finset.sum_nbij' (fun a => vmirror a) (fun a => vmirror a) ?_ ?_ ?_ ?_ ?_
  · intro a ha
    exact Finset.mem_range.mpr (vmirror_lt (Finset.mem_range.mp ha))
  · intro a ha
    exact Finset.mem_range.mpr (vmirror_lt (Finset.mem_range.mp ha))
  · intro a ha
    exact vmirror_invol (Finset.mem_range.mp ha)
  · intro a ha
    exact vmirror_invol (Finset.mem_range.mp ha)
  · intro a ha
    rfl

/-- C6 (corrected): the evaluator accumulator is antisymmetric between the
180-degree rotated board and the FILE-MIRRORED board, not between the
rotated board and the board itself: the opponent piece-square lookup
mirrors ranks only, so rotating (which also reverses files) lands on the
mirrored files.  Holds for any value/table/tropism triple on a well-formed
board whose two kings exist and are unique. -/
theorem c6_rotation_antisymmetric_up_to_file_mirror
    (V : Char → Int) (PST : Char → List Int) (T : Char → Int)
    (p : Board) (hw : Wellformed p) (tK tk : Nat)
    (htK : tK < 120) (htk : tk < 120)
    (hK : getN p tK = 'K') (hKu : ∀ j, j < 120 → j ≠ tK → getN p j ≠ 'K')
    (hk : getN p tk = 'k') (hku : ∀ j, j < 120 → j ≠ tk → getN p j ≠ 'k') :
    score_sum V PST T (rotateBoard p) = -(score_sum V PST T (hmirrorBoard p)) := by
  obtain ⟨hKc1, hKc8, hKr2, hKr9, -⟩ := wf_upper_inner hw htK (by rw [hK]; decide)
  obtain ⟨hkc1, hkc8, hkr2, hkr9, -⟩ := wf_lower_inner hw htk (by rw [hk]; decide)
  have hfrK : pyFind (rotateBoard p) 'K' = ((119 - tk : Nat) : Int) :=
    rot_king_find hw hkc1 hkc8 hkr2 hkr9 (by decide) (by decide) (by decide) hk hku
  have hfrk : pyFind (rotateBoard p) 'k' = ((119 - tK : Nat) : Int) :=
    rot_king_find hw hKc1 hKc8 hKr2 hKr9 (by decide) (by decide) (by decide) hK hKu
  have hfhK : pyFind (hmirrorBoard p) 'K' = ((hmirror tK : Nat) : Int) :=
    hm_king_find hw hKc1 hKc8 htK hK hKu
  have hfhk : pyFind (hmirrorBoard p) 'k' = ((hmirror tk : Nat) : Int) :=
    hm_king_find hw hkc1 hkc8 htk hk hku
  have hlrot : (rotateBoard p).length = 120 := by rw [rotateBoard_length, wf_length hw]
  have hlhm : (hmirrorBoard p).length = 120 := by rw [hmirrorBoard_length, wf_length hw]
  simp only [score_sum]
  rw [hfrK, hfrk, hfhK, hfhk, hlrot, hlhm, list_range_sum_int, list_range_sum_int,
    ← Finset.sum_neg_distrib,
    ← sum_range_vmirror (fun i => -(score_term V PST T (hmirrorBoard p)
      ((hmirror tK : Nat) : Int) ((hmirror tk : Nat) : Int) i))]
  exact Finset.sum_congr rfl (fun j hjr =>
    c6_term V PST T hw hKc1 hKc8 htK hkc1 hkc8 htk j (Finset.mem_range.mp hjr))

/-- A well-formed board with K on e1, k on e8, a white pawn on g5 and a
black pawn on h2 (engine frame), placed asymmetrically across the files. -/
def c6_board : Board :=
  ("         \n" ++
   "         \n" ++
   " ....k...\n" ++
   " ........\n" ++
   " ......P.\n" ++
   " ........\n" ++
   " ........\n" ++
   " .......p\n" ++
   " ........\n" ++
   " ....K...\n" ++
   "         \n" ++
   "         \n").toList

set_option maxRecDepth 200000 in
/-- C6 counterexample: a position with zero endgame accumulator (so no
mop-up term) whose evaluation is NOT the negation of the evaluation of its
rotation: the pawns sit on different files, and the opponent lookup only
mirrors ranks. -/
theorem c6_counterexample_rotate_eval_not_antisymmetric :
    score_sum ENDGAME_PIECE_VALUES EPST ENDGAME_TROPISM_VALUES c6_board = 0 ∧
      evaluate_position c6_board ≠
        -(evaluate_position
            (rotate_position c6_board [false, false] [false, false] 0 0).1) := by
  exact ⟨by decide, by decide⟩

set_option maxRecDepth 200000 in
/-- Witness for the corrected C6 at the endgame tables on `c6_board`. -/
theorem c6_rotation_antisymmetric_up_to_file_mirror_witness :
    Wellformed c6_board ∧ getN c6_board 95 = 'K' ∧ getN c6_board 25 = 'k' ∧
      score_sum ENDGAME_PIECE_VALUES EPST ENDGAME_TROPISM_VALUES (rotateBoard c6_board) =
        -(score_sum ENDGAME_PIECE_VALUES EPST ENDGAME_TROPISM_VALUES
            (hmirrorBoard c6_board)) :=
  ⟨by decide, by decide, by decide,
    c6_rotation_antisymmetric_up_to_file_mirror _ _ _ c6_board (by decide) 95 25
      (by decide) (by decide) (by decide) (by decide) (by decide) (by decide)⟩
